import Mathlib

/-!
# Primetrade task service: access gate and owner-scoped task store

A shallow embedding of `server/middleware/authMiddleware.js`,
`server/routes/tasks.js` and the schemas of `server/models/`.

Conventions of the embedding

* A request body and a query string are flat objects with string values
  (`JsObject`); a missing key is JavaScript's `undefined` (`none`).  Values that
  are objects or arrays are not covered.
* Strings are sequences of Unicode characters. The JavaScript `.length` of a string is its
  `utf16Length`; the validator `isLength` counts as validator.js 13.15 does (`validatorLength`).
* The collections are lists of documents in insertion order.  The persistence
  engine is taken to be reachable for the task collection; a query on the
  identity collection may throw (`UserDb.fault`).
* Library functions the handlers call but the repository does not define
  (`isISO8601`, `new Date(s)`, the regular-expression engine, the clock, the
  ObjectId generator, `verifyToken`) are parameters.
* Express effects (`res.status(..).json(..)`, `next()`, `req.user = ..`) are
  recorded in the order the code performs them.
-/

namespace Primetrade

/-! ## JavaScript values -/

/-- A thrown JavaScript `Error`: the handlers only ever read `name` and `message`. -/
structure JsError where
  name : String
  message : String
deriving DecidableEq, Repr

/-- A flat JSON object with string values (`req.body`, `req.query`). A value that arrives as an object
or an array, such as the query key `status[$ne]`, is outside the embedding. -/
abbrev JsObject := List (String × String)

/-- Property read `obj[key]`; `none` is `undefined`. -/
def JsObject.get (obj : JsObject) (key : String) : Option String :=
  obj.lookup key

/-- JavaScript truthiness of a possibly-undefined string: `undefined` and `''` are falsy. -/
def truthy : Option String → Bool
  | none => false
  | some s => decide (s ≠ "")

/-- The result of `new Date(..)` or of the literal `null`. -/
inductive JsDateVal where
  | null
  | valid (ms : Int)
  | invalid
deriving DecidableEq, Repr

/-- White space as matched by `\s` and stripped by `String.prototype.trim`. -/
def isJsSpace (c : Char) : Bool :=
  let n := c.toNat
  (9 ≤ n && n ≤ 13) || n == 32 || n == 160 || n == 5760 || (8192 ≤ n && n ≤ 8202)
    || n == 8232 || n == 8233 || n == 8239 || n == 8287 || n == 12288 || n == 65279

/-- The sanitizer `.trim()` and the schema option `trim: true`. -/
def jsTrim (s : String) : String :=
  String.mk ((s.data.dropWhile isJsSpace).reverse.dropWhile isJsSpace).reverse

/-- The property `s.length` of a JavaScript string: its number of UTF-16 code units, two for a
character beyond U+FFFF. -/
def utf16Length (s : String) : Nat :=
  (s.data.map fun c => if c.toNat < 65536 then 1 else 2).sum

/-- The variation selectors U+FE0E and U+FE0F. -/
def isVariationSelector (c : Char) : Bool := c.toNat == 65038 || c.toNat == 65039

/-- The length validator.js `isLength` measures: `str.length` less the number of U+FE0E and U+FE0F
and less the number of surrogate pairs. -/
def validatorLength (s : String) : Nat :=
  utf16Length s - (s.data.filter isVariationSelector).length
    - (s.data.filter fun c => decide (65536 ≤ c.toNat)).length

/-- The validator `.isLength({ min, max })`. -/
def isLength (min max : Nat) (s : String) : Bool :=
  decide (min ≤ validatorLength s) && decide (validatorLength s ≤ max)

/-- Hexadecimal digit, either case. -/
def isHexDigit (c : Char) : Bool :=
  c.isDigit || ('a' ≤ c && c ≤ 'f') || ('A' ≤ c && c ≤ 'F')

/-- One or more hexadecimal digits. -/
def hexDigits (cs : List Char) : Bool := !cs.isEmpty && cs.all isHexDigit

/-- The validator.js test `isHexadecimal`: hexadecimal digits, after `0x` or `0h` if the string begins
so (either case). -/
def isHexadecimal (s : String) : Bool :=
  hexDigits s.data ||
    match s.data with
    | '0' :: p :: rest => (p == 'x' || p == 'X' || p == 'h' || p == 'H') && hexDigits rest
    | _ => false

/-- The validator `.isMongoId()`: `isHexadecimal(str) && str.length === 24`. -/
def isMongoId (s : String) : Bool :=
  isHexadecimal s && decide (utf16Length s = 24)

/-- A string that casts to an ObjectId: twenty-four hexadecimal digits. -/
def isObjectIdHex (s : String) : Bool :=
  decide (s.length = 24) && s.data.all isHexDigit

/-- Casting a well-formed id string to an ObjectId, written in its canonical lower-case hex form. -/
def castObjectId (s : String) : String :=
  String.mk (s.data.map Char.toLower)

/-! ## Environment -/

/-- Library behaviour and ambient values the handlers depend on. -/
structure Env where
  /-- The validator `.isISO8601()`. -/
  isISO8601 : String → Bool
  /-- The constructor `new Date(s)`; `none` is an Invalid Date. -/
  parseDate : String → Option Int
  /-- Compiling `{ $regex: pattern, $options: options }`; `none` is a pattern the engine rejects. -/
  regex : String → String → Option (String → Bool)
  /-- The clock read by the `timestamps` option. -/
  now : Int
  /-- The ObjectId given to the next created document. -/
  newId : String
  /-- The validator `.isURL()`. -/
  isURL : String → Bool

/-! ## Documents -/

/-- A document of the Task collection (`models/Task.js`). -/
structure Task where
  _id : String
  title : String
  description : String
  status : String
  priority : String
  dueDate : Option Int
  user : String
  createdAt : Int
  updatedAt : Int
deriving DecidableEq, Repr

/-- A document of the User collection (`models/User.js`); `password` is `none` when the field was not selected. -/
structure User where
  _id : String
  name : String
  email : String
  password : Option String
  bio : String
  avatar : String
  createdAt : Int
  updatedAt : Int
  __v : Nat
deriving DecidableEq, Repr

/-- The virtual `isOverdue` of the Task schema, read when the clock shows `now`: a stored date is an
object and so truthy, `null` is falsy. -/
def Task.isOverdue (now : Int) (t : Task) : Bool :=
  match t.dueDate with
  | none => false
  | some due => if t.status = "completed" then false else decide (due < now)

/-- A value of a serialized document. -/
inductive JsValue where
  | str (s : String)
  | date (ms : Int)
  | num (n : Nat)
deriving DecidableEq, Repr

/-- The plain object `this.toObject()` of an identity: the paths of the schema that the document holds
and the version key. -/
def User.toObject (u : User) : List (String × JsValue) :=
  [("_id", .str u._id), ("name", .str u.name), ("email", .str u.email)]
    ++ (match u.password with
        | some p => [("password", .str p)]
        | none => [])
    ++ [("bio", .str u.bio), ("avatar", .str u.avatar), ("createdAt", .date u.createdAt),
        ("updatedAt", .date u.updatedAt), ("__v", .num u.__v)]

/-- The method `userSchema.methods.toJSON`: `toObject()`, then `delete user.password`. -/
def User.toJSON (u : User) : List (String × JsValue) :=
  u.toObject.filter fun kv => decide (kv.1 ≠ "password")

/-- Values of the `status` enum of the schema. -/
def statusValues : List String := ["pending", "in-progress", "completed"]

/-- Values of the `priority` enum of the schema. -/
def priorityValues : List String := ["low", "medium", "high"]

/-! ## Request validation (express-validator chains of `routes/tasks.js`) -/

/-- One entry of `errors.array()`. -/
structure ValidationError where
  location : String
  param : String
  msg : String
  value : Option String
deriving DecidableEq, Repr

/-- The chain `param('id').isMongoId().withMessage('Invalid task ID')`. -/
def checkId (id : String) : List ValidationError :=
  if isMongoId id then [] else [⟨"params", "id", "Invalid task ID", some id⟩]

/-- A chain `body(field).optional()...` with one validator: skipped when the field is undefined. -/
def checkOptional (body : JsObject) (field msg : String) (ok : String → Bool) : List ValidationError :=
  match body.get field with
  | none => []
  | some v => if ok v then [] else [⟨"body", field, msg, some v⟩]

/-- The sanitizers of the task chains write the trimmed `title` and `description` back into `req.body`. -/
def sanitizeTaskBody (body : JsObject) : JsObject :=
  body.map fun kv => if kv.1 = "title" ∨ kv.1 = "description" then (kv.1, jsTrim kv.2) else kv

/-- The four optional chains shared by `router.post('/')` and `router.put('/:id')`, run on the sanitized body. -/
def checkOptionalFields (env : Env) (body : JsObject) : List ValidationError :=
  checkOptional body "description" "Description cannot exceed 500 characters" (isLength 0 500)
    ++ checkOptional body "status" "Status must be pending, in-progress, or completed" (fun v => decide (v ∈ statusValues))
    ++ checkOptional body "priority" "Priority must be low, medium, or high" (fun v => decide (v ∈ priorityValues))
    ++ checkOptional body "dueDate" "Due date must be a valid date" env.isISO8601

/-- The chain `body('title').trim().isLength({ min: 3, max: 100 })` of `router.post('/')`:
not optional, an undefined title is validated as the empty string. -/
def checkTitleRequired (body : JsObject) : List ValidationError :=
  let v := (body.get "title").getD ""
  if isLength 3 100 v then [] else [⟨"body", "title", "Task title must be between 3 and 100 characters", some v⟩]

/-- The result `validationResult(req)` of the chains of `router.post('/')`; `body` is already sanitized. -/
def validateCreate (env : Env) (body : JsObject) : List ValidationError :=
  checkTitleRequired body ++ checkOptionalFields env body

/-- The result `validationResult(req)` of the chains of `router.put('/:id')`; `body` is already sanitized. -/
def validateUpdate (env : Env) (id : String) (body : JsObject) : List ValidationError :=
  checkId id
    ++ checkOptional body "title" "Task title must be between 3 and 100 characters" (isLength 3 100)
    ++ checkOptionalFields env body

/-! ## The Task model (Mongoose operations over the collection) -/

/-- One member of a `$or` array: `{ field: { $regex: pattern, $options: options } }`. -/
structure RegexClause where
  field : String
  pattern : String
  options : String
deriving DecidableEq, Repr

/-- A filter object as the handlers build it. -/
structure TaskFilter where
  _id : Option String
  user : String
  status : Option String
  priority : Option String
  or : Option (List RegexClause)
deriving DecidableEq, Repr

/-- The string field of a task a clause names. -/
def Task.field (t : Task) (name : String) : String :=
  if name = "title" then t.title else if name = "description" then t.description else ""

/-- Compiling one clause to a test on tasks; `none` when the engine rejects the pattern. -/
def RegexClause.compile (env : Env) (c : RegexClause) : Option (Task → Bool) :=
  (env.regex c.pattern c.options).map fun m t => m (t.field c.field)

/-- The equality part of a filter: every key that is present must match. -/
def TaskFilter.base (f : TaskFilter) (t : Task) : Bool :=
  (match f._id with | none => true | some i => decide (t._id = castObjectId i))
    && decide (t.user = f.user)
    && (match f.status with | none => true | some s => decide (t.status = s))
    && (match f.priority with | none => true | some p => decide (t.priority = p))

/-- The `_id` of the filter, when it has one, casts to an ObjectId. -/
def TaskFilter.idCasts (f : TaskFilter) : Bool :=
  match f._id with
  | none => true
  | some i => isObjectIdHex i

/-- The test a filter denotes; the query throws when its `_id` does not cast and when a pattern is
rejected. -/
def TaskFilter.compile (env : Env) (f : TaskFilter) : Except JsError (Task → Bool) :=
  if f.idCasts = false then .error ⟨"CastError", "Cast to ObjectId failed"⟩
  else
    match f.or with
    | none => .ok f.base
    | some cs =>
      match cs.mapM (RegexClause.compile env) with
      | none => .error ⟨"MongoServerError", "Regular expression is invalid"⟩
      | some ps => .ok fun t => f.base t && ps.any fun p => p t

/-- Order of `.sort({ createdAt: -1 })`: newest first. -/
def newerFirst (a b : Task) : Prop := b.createdAt ≤ a.createdAt

instance : DecidableRel newerFirst := fun a b => inferInstanceAs (Decidable (b.createdAt ≤ a.createdAt))

/-- The query `Task.find(filter).sort({ createdAt: -1 })`. -/
def Task.find (env : Env) (f : TaskFilter) (tasks : List Task) : Except JsError (List Task) :=
  (f.compile env).map fun p => (tasks.filter p).insertionSort newerFirst

/-- The query `Task.findOne(filter)`. -/
def Task.findOne (env : Env) (f : TaskFilter) (tasks : List Task) : Except JsError (Option Task) :=
  (f.compile env).map fun p => tasks.find? p

/-- The document handed to `Task.create`. -/
structure TaskInput where
  title : Option String
  description : Option String
  status : Option String
  priority : Option String
  dueDate : JsDateVal
  user : String
deriving DecidableEq, Repr

/-- The update object handed to `Task.findOneAndUpdate`: a key is present when its value is `some`. -/
structure TaskUpdate where
  title : Option String
  description : Option String
  status : Option String
  priority : Option String
  dueDate : Option JsDateVal
deriving DecidableEq, Repr

/-- The error Mongoose throws when a schema validator or a cast fails. -/
def validationFailed (msg : String) : JsError := ⟨"ValidationError", msg⟩

/-- Schema validators of `title`: required, minlength 3, maxlength 100 (after the `trim` setter), both
tested on the `.length` of the string. -/
def checkTitleSchema (title : String) : Except JsError Unit :=
  if title = "" then .error (validationFailed "Task title is required")
  else if utf16Length title < 3 then
    .error (validationFailed "Task title must be at least 3 characters long")
  else if 100 < utf16Length title then .error (validationFailed "Task title cannot exceed 100 characters")
  else .ok ()

/-- Schema validator of `description`: maxlength 500. -/
def checkDescriptionSchema (d : String) : Except JsError Unit :=
  if 500 < utf16Length d then
    .error (validationFailed "Task description cannot exceed 500 characters")
  else .ok ()

/-- Schema validator of `status`: the enum. -/
def checkStatusSchema (s : String) : Except JsError Unit :=
  if s ∈ statusValues then .ok () else .error (validationFailed "Status must be either pending, in-progress, or completed")

/-- Schema validator of `priority`: the enum. -/
def checkPrioritySchema (p : String) : Except JsError Unit :=
  if p ∈ priorityValues then .ok () else .error (validationFailed "Priority must be either low, medium, or high")

/-- Casting a value to the schema type `Date`: an Invalid Date does not cast. -/
def castDate : JsDateVal → Except JsError (Option Int)
  | .null => .ok none
  | .valid ms => .ok (some ms)
  | .invalid => .error ⟨"CastError", "Cast to date failed"⟩

/-- A validator that is skipped when the key is absent from the update. -/
def whenPresent (v : Option String) (check : String → Except JsError Unit) : Except JsError Unit :=
  match v with
  | none => .ok ()
  | some x => check x

/-- The operation `Task.create(doc)`: setters and defaults of the schema, then its validators, then the
insert with a new id and both timestamps set to the clock. Returns the created document and the collection. -/
def Task.create (env : Env) (doc : TaskInput) (tasks : List Task) : Except JsError (Task × List Task) := do
  let title := jsTrim (doc.title.getD "")
  let description := jsTrim (doc.description.getD "")
  let status := doc.status.getD "pending"
  let priority := doc.priority.getD "medium"
  let dueDate ← castDate doc.dueDate
  checkTitleSchema title
  checkDescriptionSchema description
  checkStatusSchema status
  checkPrioritySchema priority
  let task : Task :=
    { _id := env.newId, title := title, description := description, status := status, priority := priority,
      dueDate := dueDate, user := doc.user, createdAt := env.now, updatedAt := env.now }
  pure (task, tasks ++ [task])

/-- Applying a cast update to a document (`$set` of the present keys, `updatedAt` from the clock). -/
def Task.applyUpdate (env : Env) (title description status priority : Option String)
    (dueDate : Option (Option Int)) (t : Task) : Task :=
  { t with
    title := title.getD t.title
    description := description.getD t.description
    status := status.getD t.status
    priority := priority.getD t.priority
    dueDate := dueDate.getD t.dueDate
    updatedAt := env.now }

/-- Replacing the first document that satisfies `p`. -/
def replaceFirst (p : Task → Bool) (new : Task) : List Task → List Task
  | [] => []
  | t :: ts => if p t then new :: ts else t :: replaceFirst p new ts

/-- Removing the first document that satisfies `p`. -/
def removeFirst (p : Task → Bool) : List Task → List Task
  | [] => []
  | t :: ts => if p t then ts else t :: removeFirst p ts

/-- The operation `Task.findOneAndUpdate(filter, update, { new: true, runValidators: true })`: the update is
cast and validated before the query runs; the first matching document is updated and returned, and
`null` is returned, with the collection untouched, when none matches. -/
def Task.findOneAndUpdate (env : Env) (f : TaskFilter) (u : TaskUpdate) (tasks : List Task) :
    Except JsError (Option Task × List Task) := do
  let title := u.title.map jsTrim
  let description := u.description.map jsTrim
  let dueDate ← match u.dueDate with
    | none => pure none
    | some d => (castDate d).map some
  whenPresent title checkTitleSchema
  whenPresent description checkDescriptionSchema
  whenPresent u.status checkStatusSchema
  whenPresent u.priority checkPrioritySchema
  let p ← f.compile env
  match tasks.find? p with
  | none => pure (none, tasks)
  | some t =>
    let t1 := t.applyUpdate env title description u.status u.priority dueDate
    pure (some t1, replaceFirst p t1 tasks)

/-- The operation `Task.findOneAndDelete(filter)`: the first matching document is removed and returned. -/
def Task.findOneAndDelete (env : Env) (f : TaskFilter) (tasks : List Task) :
    Except JsError (Option Task × List Task) := do
  let p ← f.compile env
  match tasks.find? p with
  | none => pure (none, tasks)
  | some t => pure (some t, removeFirst p tasks)

/-! ## The task routes (`routes/tasks.js`)

Each handler is given `req.user` as the access gate attached it, and returns the response it sends
together with the task collection as it is after the request. -/

/-- What a response carries besides `success` and `message`. -/
inductive Payload where
  | none
  | errors (errors : List ValidationError)
  | task (task : Task)
  | tasks (count : Nat) (tasks : List Task)
  | messages (errors : List String)
  | user (user : List (String × JsValue))
deriving DecidableEq, Repr

/-- A response `res.status(status).json({ success, message, ... })`. -/
structure Response where
  status : Nat
  success : Bool
  message : Option String
  payload : Payload
deriving DecidableEq, Repr

/-- The tasks a response lists (`tasks` of the list handler); empty for every other response. -/
def Response.taskList (r : Response) : List Task :=
  match r.payload with
  | .tasks _ ts => ts
  | _ => []

/-- The expression `new Date(s)`. -/
def newDate (env : Env) (s : String) : JsDateVal :=
  match env.parseDate s with
  | some ms => .valid ms
  | none => .invalid

/-- The expression `dueDate ? new Date(dueDate) : null`. -/
def dueDateOrNull (env : Env) (dueDate : Option String) : JsDateVal :=
  match dueDate with
  | none => .null
  | some s => if s ≠ "" then newDate env s else .null

/-- The filter object `{ user: req.user._id }` with the optional keys of `router.get('/')`. -/
def listFilter (user : User) (query : JsObject) : TaskFilter :=
  let status := query.get "status"
  let priority := query.get "priority"
  let search := query.get "search"
  { _id := none
    user := user._id
    status := if truthy status then status else none
    priority := if truthy priority then priority else none
    or := if truthy search then
        some [⟨"title", search.getD "", "i"⟩, ⟨"description", search.getD "", "i"⟩]
      else none }

/-- The handler of `router.get('/')`. -/
def getTasks (env : Env) (user : User) (query : JsObject) (tasks : List Task) : Response × List Task :=
  match Task.find env (listFilter user query) tasks with
  | .ok found => (⟨200, true, none, .tasks found.length found⟩, tasks)
  | .error _ => (⟨500, false, some "Server error while fetching tasks. Please try again.", .none⟩, tasks)

/-- The filter object `{ _id: req.params.id, user: req.user._id }`. -/
def ownedFilter (user : User) (id : String) : TaskFilter :=
  { _id := some id, user := user._id, status := none, priority := none, or := none }

/-- The handler of `router.get('/:id')`. -/
def getTaskById (env : Env) (user : User) (id : String) (tasks : List Task) : Response × List Task :=
  let errors := checkId id
  if errors ≠ [] then (⟨400, false, some "Validation failed", .errors errors⟩, tasks)
  else
    match Task.findOne env (ownedFilter user id) tasks with
    | .ok none => (⟨404, false, some "Task not found", .none⟩, tasks)
    | .ok (some task) => (⟨200, true, none, .task task⟩, tasks)
    | .error _ => (⟨500, false, some "Server error while fetching task. Please try again.", .none⟩, tasks)

/-- The handler of `router.post('/')`. -/
def createTask (env : Env) (user : User) (reqBody : JsObject) (tasks : List Task) : Response × List Task :=
  let body := sanitizeTaskBody reqBody
  let errors := validateCreate env body
  if errors ≠ [] then (⟨400, false, some "Validation failed", .errors errors⟩, tasks)
  else
    let doc : TaskInput :=
      { title := body.get "title"
        description := body.get "description"
        status := body.get "status"
        priority := body.get "priority"
        dueDate := dueDateOrNull env (body.get "dueDate")
        user := user._id }
    match Task.create env doc tasks with
    | .ok (task, tasks1) => (⟨201, true, some "Task created successfully", .task task⟩, tasks1)
    | .error _ => (⟨500, false, some "Server error while creating task. Please try again.", .none⟩, tasks)

/-- The object `updateFields` of `router.put('/:id')`: one key for each of the five fields that is not undefined. -/
def updateFields (env : Env) (body : JsObject) : TaskUpdate :=
  { title := body.get "title"
    description := body.get "description"
    status := body.get "status"
    priority := body.get "priority"
    dueDate := (body.get "dueDate").map fun d => dueDateOrNull env (some d) }

/-- The test `Object.keys(updateFields).length === 0`. -/
def TaskUpdate.isEmpty (u : TaskUpdate) : Bool :=
  u.title.isNone && u.description.isNone && u.status.isNone && u.priority.isNone && u.dueDate.isNone

/-- The handler of `router.put('/:id')`. -/
def updateTask (env : Env) (user : User) (id : String) (reqBody : JsObject) (tasks : List Task) :
    Response × List Task :=
  let body := sanitizeTaskBody reqBody
  let errors := validateUpdate env id body
  if errors ≠ [] then (⟨400, false, some "Validation failed", .errors errors⟩, tasks)
  else
    let fields := updateFields env body
    if fields.isEmpty then (⟨400, false, some "No valid fields provided for update", .none⟩, tasks)
    else
      match Task.findOneAndUpdate env (ownedFilter user id) fields tasks with
      | .ok (none, tasks1) => (⟨404, false, some "Task not found or unauthorized", .none⟩, tasks1)
      | .ok (some task, tasks1) => (⟨200, true, some "Task updated successfully", .task task⟩, tasks1)
      | .error _ => (⟨500, false, some "Server error while updating task. Please try again.", .none⟩, tasks)

/-- The handler of `router.delete('/:id')`. -/
def deleteTask (env : Env) (user : User) (id : String) (tasks : List Task) : Response × List Task :=
  let errors := checkId id
  if errors ≠ [] then (⟨400, false, some "Validation failed", .errors errors⟩, tasks)
  else
    match Task.findOneAndDelete env (ownedFilter user id) tasks with
    | .ok (none, tasks1) => (⟨404, false, some "Task not found or unauthorized", .none⟩, tasks1)
    | .ok (some task, tasks1) => (⟨200, true, some "Task deleted successfully", .task task⟩, tasks1)
    | .error _ => (⟨500, false, some "Server error while deleting task. Please try again.", .none⟩, tasks)

/-! ## The identity collection (`models/User.js`) -/

/-- The User collection together with the state of the connection: when `fault` is set, a query throws it. -/
structure UserDb where
  users : List User
  fault : Option JsError
deriving DecidableEq, Repr

/-- The projection `.select('-password')`. -/
def User.withoutPassword (u : User) : User := { u with password := none }

/-- The query `User.findById(id).select('-password')`: throws on a connection fault and on an id that
does not cast to an ObjectId, and otherwise yields the stored document, password excluded, or `null`. -/
def User.findById (db : UserDb) (id : String) : Except JsError (Option User) :=
  match db.fault with
  | some e => .error e
  | none =>
    if isObjectIdHex id then
      .ok ((db.users.find? fun u => decide (u._id = castObjectId id)).map User.withoutPassword)
    else .error ⟨"CastError", "Cast to ObjectId failed"⟩

/-- The update object of `User.findByIdAndUpdate` in `routes/profile.js`. -/
structure ProfileUpdate where
  name : Option String
  bio : Option String
  avatar : Option String
deriving DecidableEq, Repr

/-- Applying a profile update to a stored identity (`$set` of the present keys, `updatedAt` from the clock). -/
def User.applyUpdate (now : Int) (f : ProfileUpdate) (u : User) : User :=
  { u with
    name := (f.name.map jsTrim).getD u.name
    bio := f.bio.getD u.bio
    avatar := f.avatar.getD u.avatar
    updatedAt := now }

/-- Rewriting the first stored identity that satisfies `p`. -/
def updateFirstUser (p : User → Bool) (g : User → User) : List User → List User
  | [] => []
  | u :: us => if p u then g u :: us else u :: updateFirstUser p g us

/-- Schema validators of `name`: required, minlength 2, maxlength 50 (after the `trim` setter). -/
def checkNameSchema (name : String) : Except JsError Unit :=
  if name = "" then .error (validationFailed "Name is required")
  else if utf16Length name < 2 then .error (validationFailed "Name must be at least 2 characters long")
  else if 50 < utf16Length name then .error (validationFailed "Name cannot exceed 50 characters")
  else .ok ()

/-- Schema validator of `bio`: maxlength 500. -/
def checkBioSchema (bio : String) : Except JsError Unit :=
  if 500 < utf16Length bio then .error (validationFailed "Bio cannot exceed 500 characters") else .ok ()

/-- The operation `User.findByIdAndUpdate(id, update, { new: true, runValidators: true })` for the id of
an attached identity: throws on a connection fault and on a failed validator; the stored identity is
updated and returned without its password (`select: false`), and `null` is returned, with the
collection untouched, when no identity has the id. -/
def User.findByIdAndUpdate (now : Int) (db : UserDb) (id : String) (f : ProfileUpdate) :
    Except JsError (Option User × UserDb) :=
  match db.fault with
  | some e => .error e
  | none => do
    whenPresent (f.name.map jsTrim) checkNameSchema
    whenPresent f.bio checkBioSchema
    match db.users.find? fun u => decide (u._id = id) with
    | none => pure (none, db)
    | some u =>
      pure (some (User.applyUpdate now f u).withoutPassword,
        { db with users := updateFirstUser (fun u => decide (u._id = id)) (User.applyUpdate now f) db.users })

/-! ## The profile routes (`routes/profile.js`) -/

/-- The object `{ id, name, email, bio, avatar, createdAt, updatedAt }` both handlers build. -/
def profileView (u : User) : List (String × JsValue) :=
  [("id", .str u._id), ("name", .str u.name), ("email", .str u.email), ("bio", .str u.bio),
    ("avatar", .str u.avatar), ("createdAt", .date u.createdAt), ("updatedAt", .date u.updatedAt)]

/-- The keys of the object both profile handlers return. -/
def profileKeys : List String := ["id", "name", "email", "bio", "avatar", "createdAt", "updatedAt"]

/-- The handler of `router.get('/')` of the profile routes. -/
def getProfile (user : User) : Response := ⟨200, true, none, .user (profileView user)⟩

/-- The sanitizers of the profile chains write the trimmed `name`, `bio` and `avatar` back into `req.body`. -/
def sanitizeProfileBody (body : JsObject) : JsObject :=
  body.map fun kv =>
    if kv.1 = "name" ∨ kv.1 = "bio" ∨ kv.1 = "avatar" then (kv.1, jsTrim kv.2) else kv

/-- The result `validationResult(req)` of the chains of the profile update; `body` is already sanitized. -/
def validateProfile (env : Env) (body : JsObject) : List ValidationError :=
  checkOptional body "name" "Name must be between 2 and 50 characters" (isLength 2 50)
    ++ checkOptional body "bio" "Bio cannot exceed 500 characters" (isLength 0 500)
    ++ checkOptional body "avatar" "Avatar must be a valid URL" env.isURL

/-- The test `Object.keys(updateFields).length === 0` of the profile update. -/
def ProfileUpdate.isEmpty (f : ProfileUpdate) : Bool :=
  f.name.isNone && f.bio.isNone && f.avatar.isNone

/-- The handler of `router.put('/')` of the profile routes; returns the response and the identity
collection as it is after the request. -/
def putProfile (env : Env) (user : User) (reqBody : JsObject) (db : UserDb) : Response × UserDb :=
  let body := sanitizeProfileBody reqBody
  let errors := validateProfile env body
  if errors ≠ [] then (⟨400, false, some "Validation failed", .errors errors⟩, db)
  else
    let fields : ProfileUpdate :=
      { name := body.get "name", bio := body.get "bio", avatar := body.get "avatar" }
    if fields.isEmpty then (⟨400, false, some "No valid fields provided for update", .none⟩, db)
    else
      match User.findByIdAndUpdate env.now db user._id fields with
      | .ok (none, db1) => (⟨404, false, some "User not found", .none⟩, db1)
      | .ok (some updatedUser, db1) =>
        (⟨200, true, some "Profile updated successfully", .user (profileView updatedUser)⟩, db1)
      | .error _ =>
        (⟨500, false, some "Server error while updating profile. Please try again.", .none⟩, db)

/-! ## The access gate (`middleware/authMiddleware.js`) -/

/-- The payload `verifyToken` returns; the gate reads only `decoded.id`. -/
structure Decoded where
  id : String
deriving DecidableEq, Repr

/-- What the gate does to the outside world, in the order it does it. -/
inductive Effect where
  | verifyToken (token : String)
  | findById (id : String)
  | consoleError (text : String)
  | respond (r : Response)
  | setUser (user : User)
  | next
deriving DecidableEq, Repr

/-- The test `s.startsWith(p)` on character sequences. -/
def startsWithChars : List Char → List Char → Bool
  | _, [] => true
  | [], _ :: _ => false
  | c :: cs, p :: ps => c == p && startsWithChars cs ps

/-- The method `s.split(sep)` for a one-character separator, on character sequences. -/
def splitChars (sep : Char) : List Char → List (List Char)
  | [] => [[]]
  | c :: cs =>
    if c = sep then [] :: splitChars sep cs
    else
      match splitChars sep cs with
      | [] => [[c]]
      | w :: ws => (c :: w) :: ws

/-- The expression `authHeader.split(' ')[1]`; `none` is `undefined`. -/
def bearerToken (authHeader : String) : Option String :=
  ((splitChars ' ' authHeader.data)[1]?).map String.mk

/-- The rejection for a missing header or another scheme. -/
def noTokenOrFormat : Response :=
  ⟨401, false, some "Access denied. No token provided or invalid format.", .none⟩

/-- The rejection for an empty token. -/
def noToken : Response := ⟨401, false, some "Access denied. No token provided.", .none⟩

/-- The rejection for a verified id that has no identity. -/
def userNotFound : Response := ⟨401, false, some "User not found. Token is invalid.", .none⟩

/-- The rejection of the catch block for the verifier's error. -/
def invalidOrExpired : Response := ⟨401, false, some "Invalid or expired token. Please login again.", .none⟩

/-- The rejection of the catch block for every other error. -/
def authenticationFailed : Response := ⟨500, false, some "Authentication failed. Please try again.", .none⟩

/-- The `catch (error)` block of the gate. -/
def gateCatch (error : JsError) : List Effect :=
  [ .consoleError ("Auth Middleware Error: " ++ error.message),
    .respond (if error.message = "Invalid or expired token" then invalidOrExpired else authenticationFailed) ]

/-- The middleware `authMiddleware(req, res, next)`, for a request whose `Authorization` header is
`authHeader` (`none` when the header is absent), given the token verifier of `utils/jwt` and the
identity collection. -/
def authMiddleware (verifyToken : String → Except JsError Decoded) (db : UserDb)
    (authHeader : Option String) : List Effect :=
  match authHeader with
  | none => [.respond noTokenOrFormat]
  | some header =>
    if header = "" ∨ startsWithChars header.data "Bearer ".data = false then [.respond noTokenOrFormat]
    else
      let token := bearerToken header
      if truthy token = false then [.respond noToken]
      else
        let token := token.getD ""
        match verifyToken token with
        | .error e => .verifyToken token :: gateCatch e
        | .ok decoded =>
          match User.findById db decoded.id with
          | .error e => .verifyToken token :: .findById decoded.id :: gateCatch e
          | .ok none => [.verifyToken token, .findById decoded.id, .respond userNotFound]
          | .ok (some user) => [.verifyToken token, .findById decoded.id, .setUser user, .next]

/-- Number of times the run called `next()`. -/
def nextCalls (run : List Effect) : Nat := run.count .next

/-- The response an effect sends, if it sends one. -/
def Effect.response : Effect → Option Response
  | .respond r => some r
  | _ => none

/-- The identity an effect assigns to `req.user`, if it assigns one. -/
def Effect.assigned : Effect → Option User
  | .setUser u => some u
  | _ => none

/-- The responses the run sent, in order. -/
def responses (run : List Effect) : List Response := run.filterMap Effect.response

/-- The value of `req.user` after the run, when the run set it. -/
def attachedUser (run : List Effect) : Option User := (run.filterMap Effect.assigned).getLast?

/-- The identity collection after `User.findByIdAndUpdate(id, fields)` of `routes/profile.js` has applied
`fields` to the identity `id`. -/
def UserDb.updateProfile (db : UserDb) (id : String) (now : Int) (f : ProfileUpdate) : UserDb :=
  { db with users := updateFirstUser (fun u => decide (u._id = id)) (User.applyUpdate now f) db.users }

/-- The header begins with the scheme `Bearer ` followed by the non-empty `token`, which ends at the
next space or at the end of the header. -/
def BearerForm (header token : String) : Prop :=
  token ≠ "" ∧ ' ' ∉ token.data
    ∧ ∃ rest, header.data = "Bearer ".data ++ token.data ++ rest ∧ (rest = [] ∨ rest.head? = some ' ')

/-! ## The client-side filter (`client/app/dashboard/page.js`) -/

/-- The method `s.toLowerCase()`, on the letters A to Z. -/
def lowerChars (s : String) : List Char := s.data.map Char.toLower

/-- The method `text.includes(part)` on character sequences. -/
def includesChars (part : List Char) : List Char → Bool
  | [] => part.isEmpty
  | c :: cs => startsWithChars (c :: cs) part || includesChars part cs

/-- The search test of `applyFilters`: the lower-cased title or description includes the lower-cased
search string. -/
def searchIncludes (search : String) (t : Task) : Bool :=
  includesChars (lowerChars search) (lowerChars t.title)
    || includesChars (lowerChars search) (lowerChars t.description)

/-! ## Failure classes of the gate -/

/-- The failures of the gate: no usable header, a token the verifier rejects, a verified id without an
identity, an error of the identity collection. -/
inductive GateFailure where
  | missing
  | invalidToken
  | unknownIdentity
  | unavailable
deriving DecidableEq, Repr

/-- A request fails in the given class. -/
def FailsAs (verifyToken : String → Except JsError Decoded) (db : UserDb) (authHeader : Option String) :
    GateFailure → Prop
  | .missing => ∀ header token, authHeader = some header → ¬ BearerForm header token
  | .invalidToken => ∃ header token e, authHeader = some header ∧ BearerForm header token
      ∧ verifyToken token = .error e
  | .unknownIdentity => ∃ header token decoded, authHeader = some header ∧ BearerForm header token
      ∧ verifyToken token = .ok decoded ∧ User.findById db decoded.id = .ok none
  | .unavailable => ∃ header token decoded e, authHeader = some header ∧ BearerForm header token
      ∧ verifyToken token = .ok decoded ∧ User.findById db decoded.id = .error e

/-- The verifier throws its errors with the one message the catch block of the gate tests for. -/
def VerifierMessage (verifyToken : String → Except JsError Decoded) : Prop :=
  ∀ token e, verifyToken token = .error e → e.message = "Invalid or expired token"

/-- A fault of the identity collection does not carry the verifier's message. -/
def StoreMessage (db : UserDb) : Prop :=
  ∀ e, db.fault = some e → e.message ≠ "Invalid or expired token"

/-- The responses the gate has for each failure class. -/
def classResponses : GateFailure → List Response
  | .missing => [noTokenOrFormat, noToken]
  | .invalidToken => [invalidOrExpired]
  | .unknownIdentity => [userNotFound]
  | .unavailable => [authenticationFailed]

/-! ## The global error handler (`index.js`) -/

/-- What the global error handler reads of the error it is given. -/
structure ServerError where
  name : String
  message : String
  code : Option Nat
  statusCode : Option Nat
  /-- The messages of `Object.values(err.errors)`. -/
  errors : List String
  /-- The keys `Object.keys(err.keyPattern)`. -/
  keyPattern : List String
deriving DecidableEq, Repr

/-- The expression `err.statusCode || 500`. -/
def statusOr500 : Option Nat → Nat
  | some 0 => 500
  | some c => c
  | none => 500

/-- The handler `app.use((err, req, res, next) => ...)`: the response it sends; in its last branch a
status code outside 100..999 makes `res.status(..).json(..)` throw. -/
def globalErrorHandler (err : ServerError) : Except JsError Response :=
  if err.name = "ValidationError" then .ok ⟨400, false, some "Validation Error", .messages err.errors⟩
  else if err.code = some 11000 then
    .ok ⟨400, false, some ((err.keyPattern.head?).getD "undefined" ++ " already exists"), .none⟩
  else if err.name = "JsonWebTokenError" then .ok ⟨401, false, some "Invalid token", .none⟩
  else if err.name = "TokenExpiredError" then .ok ⟨401, false, some "Token expired", .none⟩
  else if 100 ≤ statusOr500 err.statusCode ∧ statusOr500 err.statusCode ≤ 999 then
    .ok ⟨statusOr500 err.statusCode, false,
      some (if err.message = "" then "Internal Server Error" else err.message), .none⟩
  else .error ⟨"RangeError", "Invalid status code"⟩

/-- The date a submitted `dueDate` stands for: `null` when it is omitted or blank, and otherwise what
`new Date` reads from it. -/
def submittedDate (env : Env) (dueDate : Option String) : Option Int :=
  match dueDate with
  | none => none
  | some d => if d = "" then none else env.parseDate d

/-- The field rules of a create as the request validators test them: the title, trimmed, has 3 to 100
characters as `isLength` counts them; a description, trimmed, has at most 500; a status and a
priority are of their enums. -/
def CreateAcceptable (body : JsObject) : Prop :=
  (∃ raw, body.get "title" = some raw ∧ 3 ≤ validatorLength (jsTrim raw)
      ∧ validatorLength (jsTrim raw) ≤ 100)
    ∧ (∀ raw, body.get "description" = some raw → validatorLength (jsTrim raw) ≤ 500)
    ∧ (∀ v, body.get "status" = some v → v ∈ statusValues)
    ∧ (∀ v, body.get "priority" = some v → v ∈ priorityValues)

/-- The title and the description of a body, trimmed, are within the `maxlength` of the schema, which
is tested on the `.length` of the string. -/
def SchemaLengths (body : JsObject) : Prop :=
  (∀ raw, body.get "title" = some raw → utf16Length (jsTrim raw) ≤ 100)
    ∧ (∀ raw, body.get "description" = some raw → utf16Length (jsTrim raw) ≤ 500)

/-- The five keys a task body is read for. -/
def taskKeys : List String := ["title", "description", "status", "priority", "dueDate"]

/-! ## Invariants of the collections -/

/-- The engine keeps `_id` unique within the Task collection. -/
def UniqueIds (tasks : List Task) : Prop :=
  ∀ a ∈ tasks, ∀ b ∈ tasks, a._id = b._id → a = b

/-- No two documents of the Task collection carry the same `_id`. -/
def DistinctIds (tasks : List Task) : Prop := (tasks.map fun t => t._id).Nodup

/-- A date submitted in the body is one `new Date` can read. -/
def DueDateParses (env : Env) (body : JsObject) : Prop :=
  ∀ d, body.get "dueDate" = some d → d ≠ "" → (env.parseDate d).isSome = true

/-! ## Bodies of a profile update -/

/-- The keys a profile update reads. -/
def profileUpdateKeys : List String := ["name", "bio", "avatar"]

/-- The body with every key other than name, bio and avatar removed. -/
def onlyProfileKeys (body : JsObject) : JsObject :=
  body.filter fun kv => decide (kv.1 ∈ profileUpdateKeys)

/-- What a profile update never touches of a stored identity. -/
def User.credentials (u : User) : String × String × Option String := (u._id, u.email, u.password)

/-! ## The pre-save hook (`models/User.js`) -/

/-- The two functions of `bcryptjs` the hook calls; each may throw. -/
structure Bcrypt where
  /-- The call `bcrypt.genSalt(rounds)`. -/
  genSalt : Nat → Except JsError String
  /-- The call `bcrypt.hash(data, salt)`. -/
  hash : String → String → Except JsError String

/-- What the pre-save hook does to the outside world, in the order it does it. -/
inductive HookEffect where
  | genSalt (rounds : Nat)
  | hash (data salt : String)
  | next
  | nextError (error : JsError)
deriving DecidableEq, Repr

/-- The hook `userSchema.pre('save', ...)` on a document whose password path is modified or new
(`isModified`) or not: returns the document as the hook leaves it and what the hook did. A password
that is not a string is one `bcrypt.hash` throws on. -/
def preSave (bcrypt : Bcrypt) (isModified : Bool) (doc : User) : User × List HookEffect :=
  if isModified = false then (doc, [.next])
  else
    match bcrypt.genSalt 10 with
    | .error e => (doc, [.genSalt 10, .nextError e])
    | .ok salt =>
      match doc.password with
      | none => (doc, [.genSalt 10, .nextError ⟨"Error", "Illegal arguments: undefined, string"⟩])
      | some plain =>
        match bcrypt.hash plain salt with
        | .error e => (doc, [.genSalt 10, .hash plain salt, .nextError e])
        | .ok hashed => ({ doc with password := some hashed }, [.genSalt 10, .hash plain salt, .next])

/-- The hash calls of a run of the hook. -/
def hashCalls (run : List HookEffect) : List (String × String) :=
  run.filterMap fun e => match e with
    | .hash data salt => some (data, salt)
    | _ => none

/-! ## Sample data

Concrete values at which the general statements are instantiated. -/

/-- A sample environment: dates are ten-character strings, a pattern matches the equal string. -/
def sampleEnv : Env :=
  { isISO8601 := fun s => decide (s.length = 10)
    parseDate := fun s => if s.length = 10 then some 1700000000000 else none
    regex := fun p _ => some fun s => decide (p = s)
    now := 1000
    newId := "0123456789abcdef01234567"
    isURL := fun s => startsWithChars s.data "http".data }

/-- The identity Ann as the gate attaches it. -/
def ann : User := ⟨"aaaaaaaaaaaaaaaaaaaaaaaa", "Ann", "ann@x.com", none, "", "", 0, 0, 0⟩

/-- The identity Bob as the gate attaches it. -/
def bob : User := ⟨"bbbbbbbbbbbbbbbbbbbbbbbb", "Bob", "bob@x.com", none, "", "", 0, 0, 0⟩

/-- A task of Ann. -/
def milk : Task :=
  ⟨"0123456789abcdef01234567", "Buy milk", "", "pending", "medium", none, "aaaaaaaaaaaaaaaaaaaaaaaa", 1000, 1000⟩

/-- A verifier for the sample requests: it accepts the token `good` for Ann. -/
def sampleVerify (token : String) : Except JsError Decoded :=
  if token = "good" then .ok ⟨"aaaaaaaaaaaaaaaaaaaaaaaa"⟩ else .error ⟨"Error", "Invalid or expired token"⟩

/-- The identity Ann as it is stored, with its password hash. -/
def annStored : User := { ann with password := some "$2a$10$hash" }

/-- An identity collection that holds Ann. -/
def sampleDb : UserDb := ⟨[annStored], none⟩

/-- A token for an identity that is not stored. -/
def ghostVerify (token : String) : Except JsError Decoded :=
  if token = "ghost" then .ok ⟨"cccccccccccccccccccccccc"⟩ else sampleVerify token

/-- The identity collection when the connection is down. -/
def downDb : UserDb := ⟨[annStored], some ⟨"MongoNetworkError", "connection refused"⟩⟩

/-- A regular-expression engine for the sample requests, exact on patterns made of ordinary characters
and `.`, which stands for any one character: `dotMatchHere` matches a pattern at the start of a text. -/
def dotMatchHere (fold : Bool) : List Char → List Char → Bool
  | [], _ => true
  | _ :: _, [] => false
  | p :: ps, c :: cs =>
    (p == '.' || (if fold then p.toLower == c.toLower else p == c)) && dotMatchHere fold ps cs

/-- The sample engine: a pattern matches when it matches at some position of the text. -/
def dotSearch (fold : Bool) (pattern : List Char) : List Char → Bool
  | [] => dotMatchHere fold pattern []
  | c :: cs => dotMatchHere fold pattern (c :: cs) || dotSearch fold pattern cs

/-- The sample engine: a pattern that opens a group and never closes it is rejected; the option `i`
folds case. -/
def sampleRegex (pattern options : String) : Option (String → Bool) :=
  if '(' ∈ pattern.data ∧ ')' ∉ pattern.data then none
  else some fun s => dotSearch (decide ('i' ∈ options.data)) pattern.data s.data

/-- The sample environment with the sample engine. -/
def regexEnv : Env := { sampleEnv with regex := sampleRegex }

/-- A task of Ann whose title is `abc`. -/
def abc : Task :=
  ⟨"abcabcabcabcabcabcabcabc", "abc", "", "pending", "medium", none, "aaaaaaaaaaaaaaaaaaaaaaaa", 2000, 2000⟩

/-- A bcrypt for the sample requests: the salt names the cost, the hash joins salt and data. -/
def sampleBcrypt : Bcrypt :=
  { genSalt := fun rounds => .ok ("$2a$" ++ toString rounds ++ "$")
    hash := fun data salt => .ok (salt ++ data) }

/-- A title of fifty-one characters beyond U+FFFF (U+1F600): fifty-one for `isLength`, one hundred and
two for `.length`. -/
def grins : String := String.mk (List.replicate 51 (Char.ofNat 128512))

/-! ## Lemmas on trimming and sanitized bodies -/

theorem dropWhile_of_head_not {α : Type} (p : α → Bool) (l : List α)
    (h : ∀ a, l.head? = some a → p a = false) : l.dropWhile p = l := by
  cases l with
  | nil => rfl
  | cons a t => simp [List.dropWhile_cons, h a rfl]

theorem head_dropWhile_not {α : Type} (p : α → Bool) (l : List α) :
    ∀ a, (l.dropWhile p).head? = some a → p a = false := by
  induction l with
  | nil => simp
  | cons x t ih =>
    intro a
    by_cases hx : p x = true
    · simpa [List.dropWhile_cons, hx] using ih a
    · simp only [List.dropWhile_cons, hx]
      simp only [Bool.false_eq_true, ↓reduceIte, List.head?_cons, Option.some.injEq]
      rintro rfl
      simpa using hx

/-- Stripping at the end keeps the first element when anything is left. -/
theorem head_trimEnd {α : Type} (p : α → Bool) (l : List α) (a : α)
    (h : ((l.reverse.dropWhile p).reverse).head? = some a) : l.head? = some a := by
  have hpre : (l.reverse.dropWhile p).reverse <+: l := by
    have := List.dropWhile_suffix p (l := l.reverse)
    simpa using List.reverse_prefix.mpr this
  obtain ⟨t, ht⟩ := hpre
  cases hr : (l.reverse.dropWhile p).reverse with
  | nil => simp [hr] at h
  | cons b r =>
    rw [hr] at h ht
    rw [← ht]
    simpa using h

theorem jsTrim_idem (s : String) : jsTrim (jsTrim s) = jsTrim s := by
  unfold jsTrim
  simp only
  congr 1
  have hA : List.dropWhile isJsSpace ((s.data.dropWhile isJsSpace).reverse.dropWhile isJsSpace).reverse
      = ((s.data.dropWhile isJsSpace).reverse.dropWhile isJsSpace).reverse := by
    apply dropWhile_of_head_not
    intro a ha
    exact head_dropWhile_not isJsSpace s.data a (head_trimEnd isJsSpace _ a ha)
  rw [hA]
  simp [List.dropWhile_idempotent]

theorem get_sanitizeTaskBody (body : JsObject) (k : String) :
    (sanitizeTaskBody body).get k
      = if k = "title" ∨ k = "description" then (body.get k).map jsTrim else body.get k := by
  unfold sanitizeTaskBody JsObject.get
  induction body with
  | nil => simp
  | cons kv rest ih =>
    obtain ⟨a, v⟩ := kv
    rw [List.map_cons]
    by_cases h : a = "title" ∨ a = "description"
    · rw [if_pos (show (a, v).1 = "title" ∨ (a, v).1 = "description" from h)]
      by_cases hk : k = a
      · subst hk
        simp [List.lookup_cons, h]
      · have hb : (k == a) = false := by simpa using hk
        simp only [List.lookup_cons, hb]
        exact ih
    · rw [if_neg (show ¬ ((a, v).1 = "title" ∨ (a, v).1 = "description") from h)]
      by_cases hk : k = a
      · subst hk
        simp [List.lookup_cons, h]
      · have hb : (k == a) = false := by simpa using hk
        simp only [List.lookup_cons, hb]
        exact ih

/-! ## Lemmas on lengths and ids -/

theorem validatorLength_le (s : String) : validatorLength s ≤ utf16Length s := by
  unfold validatorLength
  omega

theorem utf16Length_empty : utf16Length "" = 0 := rfl

theorem validatorLength_empty : validatorLength "" = 0 := rfl

theorem isHexDigit_lt (c : Char) (h : isHexDigit c = true) : c.toNat < 65536 := by
  unfold isHexDigit Char.isDigit at h
  simp only [Bool.or_eq_true, Bool.and_eq_true, decide_eq_true_eq, Char.le_def] at h
  have hc : c.toNat = c.val.toNat := rfl
  rw [hc]
  rcases h with (h | h) | h
  · have h2 : c.val.toNat ≤ 57 := h.2
    omega
  · have h2 : c.val.toNat ≤ 102 := h.2
    omega
  · have h2 : c.val.toNat ≤ 70 := h.2
    omega

theorem utf16Length_hex (cs : List Char) (h : cs.all isHexDigit = true) :
    utf16Length ⟨cs⟩ = cs.length := by
  induction cs with
  | nil => rfl
  | cons c cs ih =>
    simp only [List.all_cons, Bool.and_eq_true] at h
    have hc := isHexDigit_lt c h.1
    have := ih h.2
    simp only [utf16Length, List.map_cons, List.sum_cons, List.length_cons] at this ⊢
    rw [if_pos hc, this]
    omega

theorem isObjectIdHex_isMongoId (s : String) (h : isObjectIdHex s = true) : isMongoId s = true := by
  unfold isObjectIdHex at h
  simp only [Bool.and_eq_true, decide_eq_true_eq] at h
  obtain ⟨hlen, hall⟩ := h
  have h16 : utf16Length s = 24 := by
    have := utf16Length_hex s.data hall
    rw [← hlen]
    exact this
  have hne : s.data.isEmpty = false := by
    have : s.data.length = 24 := hlen
    cases hd : s.data with
    | nil => rw [hd] at this; simp at this
    | cons a l => rfl
  simp [isMongoId, isHexadecimal, hexDigits, hne, hall, h16]

/-! ## Lemmas on owner-scoped lookups -/

theorem ownedFilter_compile (env : Env) (user : User) (id : String) (hid : isObjectIdHex id = true) :
    (ownedFilter user id).compile env = .ok (ownedFilter user id).base := by
  simp [TaskFilter.compile, TaskFilter.idCasts, ownedFilter, hid]

theorem ownedFilter_compile_error (env : Env) (user : User) (id : String)
    (hid : isObjectIdHex id = false) :
    (ownedFilter user id).compile env = .error ⟨"CastError", "Cast to ObjectId failed"⟩ := by
  simp [TaskFilter.compile, TaskFilter.idCasts, ownedFilter, hid]

theorem ownedFilter_base (user : User) (id : String) (t : Task) :
    (ownedFilter user id).base t = true ↔ t._id = castObjectId id ∧ t.user = user._id := by
  simp [ownedFilter, TaskFilter.base]

theorem find_owned_none_of_other (caller : User) (id : String) (t : Task) (tasks : List Task)
    (hmem : t ∈ tasks) (huniq : UniqueIds tasks) (hcast : t._id = castObjectId id)
    (hown : t.user ≠ caller._id) :
    tasks.find? (ownedFilter caller id).base = none := by
  rw [List.find?_eq_none]
  intro x hx hp
  rw [ownedFilter_base] at hp
  have hxt : x = t := huniq x hx t hmem (hp.1.trans hcast.symm)
  exact hown (hxt ▸ hp.2)

theorem find_owned_none_of_absent (caller : User) (id : String) (tasks : List Task)
    (habsent : ∀ x ∈ tasks, x._id ≠ castObjectId id) :
    tasks.find? (ownedFilter caller id).base = none := by
  rw [List.find?_eq_none]
  intro x hx hp
  rw [ownedFilter_base] at hp
  exact habsent x hx hp.1

theorem getTaskById_no_match (env : Env) (caller : User) (id : String) (tasks : List Task)
    (h : tasks.find? (ownedFilter caller id).base = none) :
    getTaskById env caller id tasks = ((getTaskById env caller id []).1, tasks) := by
  unfold getTaskById
  by_cases hid : checkId id = []
  · cases hx : isObjectIdHex id with
    | true => simp [hid, Task.findOne, ownedFilter_compile env caller id hx, Except.map, h]
    | false => simp [hid, Task.findOne, ownedFilter_compile_error env caller id hx, Except.map]
  · simp [hid]

theorem deleteTask_no_match (env : Env) (caller : User) (id : String) (tasks : List Task)
    (h : tasks.find? (ownedFilter caller id).base = none) :
    deleteTask env caller id tasks = ((deleteTask env caller id []).1, tasks) := by
  unfold deleteTask
  by_cases hid : checkId id = []
  · cases hx : isObjectIdHex id with
    | true =>
      simp [hid, Task.findOneAndDelete, ownedFilter_compile env caller id hx, h, bind, Except.bind, pure,
        Except.pure]
    | false =>
      simp [hid, Task.findOneAndDelete, ownedFilter_compile_error env caller id hx, bind, Except.bind]
  · simp [hid]

theorem findOneAndUpdate_no_match (env : Env) (caller : User) (id : String) (u : TaskUpdate)
    (tasks : List Task) (h : tasks.find? (ownedFilter caller id).base = none) :
    Task.findOneAndUpdate env (ownedFilter caller id) u tasks
      = (Task.findOneAndUpdate env (ownedFilter caller id) u []).map fun r => (r.1, tasks) := by
  unfold Task.findOneAndUpdate
  cases hx : isObjectIdHex id with
  | true =>
    simp only [ownedFilter_compile env caller id hx, h, List.find?_nil, bind, Except.bind, pure,
      Except.pure, Except.map]
    repeat' split
    all_goals rfl
  | false =>
    simp only [ownedFilter_compile_error env caller id hx, bind, Except.bind, pure, Except.pure,
      Except.map]
    repeat' split
    all_goals rfl

theorem updateTask_no_match (env : Env) (caller : User) (id : String) (body : JsObject)
    (tasks : List Task) (h : tasks.find? (ownedFilter caller id).base = none) :
    updateTask env caller id body tasks = ((updateTask env caller id body []).1, tasks) := by
  unfold updateTask
  simp only [findOneAndUpdate_no_match env caller id _ tasks h]
  by_cases hv : validateUpdate env id (sanitizeTaskBody body) = []
  · by_cases he : (updateFields env (sanitizeTaskBody body)).isEmpty = true
    · simp [hv, he]
    · simp only [hv, he]
      cases hr : Task.findOneAndUpdate env (ownedFilter caller id) (updateFields env (sanitizeTaskBody body)) [] with
      | error e => simp [Except.map]
      | ok r =>
        obtain ⟨o, ts⟩ := r
        cases o <;> simp [Except.map]
  · simp [hv]

/-! ## Lemmas on validated updates -/

theorem checkOptional_nil (body : JsObject) (field msg : String) (ok : String → Bool)
    (h : checkOptional body field msg ok = []) (v : String) (hv : body.get field = some v) :
    ok v = true := by
  unfold checkOptional at h
  rw [hv] at h
  by_cases hok : ok v = true
  · exact hok
  · simp [hok] at h

theorem isLength_iff (a b : Nat) (s : String) :
    isLength a b s = true ↔ a ≤ validatorLength s ∧ validatorLength s ≤ b := by
  simp [isLength]

theorem checkTitleSchema_ok (v : String) (h : isLength 3 100 v = true) (h16 : utf16Length v ≤ 100) :
    checkTitleSchema v = .ok () := by
  rw [isLength_iff] at h
  have hle := validatorLength_le v
  have hne : v ≠ "" := by
    rintro rfl
    rw [utf16Length_empty] at hle
    omega
  unfold checkTitleSchema
  rw [if_neg hne, if_neg (by omega), if_neg (by omega)]

theorem checkDescriptionSchema_ok (v : String) (h16 : utf16Length v ≤ 500) :
    checkDescriptionSchema v = .ok () := by
  unfold checkDescriptionSchema
  rw [if_neg (by omega)]

theorem castDate_dueDateOrNull (env : Env) (d : String)
    (h : d ≠ "" → (env.parseDate d).isSome = true) :
    ∃ r, castDate (dueDateOrNull env (some d)) = .ok r := by
  unfold dueDateOrNull
  by_cases hd : d = ""
  · simp [hd, castDate]
  · simp only [ne_eq, hd, not_false_eq_true, ↓reduceIte, newDate]
    obtain ⟨ms, hms⟩ := Option.isSome_iff_exists.mp (h hd)
    simp [hms, castDate]

/-- On a body that passed the chains of `router.put('/:id')`, the schema validators and casts of the
update succeed, so the update reaches the query. -/
theorem findOneAndUpdate_valid_nil (env : Env) (caller : User) (id : String) (body : JsObject)
    (hvalid : validateUpdate env id (sanitizeTaskBody body) = [])
    (hlen : SchemaLengths body) (hdate : DueDateParses env body) (hid : isObjectIdHex id = true) :
    Task.findOneAndUpdate env (ownedFilter caller id) (updateFields env (sanitizeTaskBody body)) []
      = .ok (none, []) := by
  simp only [validateUpdate, checkOptionalFields, List.append_eq_nil] at hvalid
  obtain ⟨⟨_, htitle⟩, ⟨⟨hdesc, hstatus⟩, hprio⟩, _⟩ := hvalid
  have h1 : whenPresent (((sanitizeTaskBody body).get "title").map jsTrim) checkTitleSchema = .ok () := by
    cases hg : (sanitizeTaskBody body).get "title" with
    | none => rfl
    | some v =>
      have hv := checkOptional_nil _ _ _ _ htitle v hg
      have hraw := get_sanitizeTaskBody body "title"
      rw [hg] at hraw
      simp only [true_or, ↓reduceIte] at hraw
      cases hb : body.get "title" with
      | none => rw [hb] at hraw; simp at hraw
      | some raw =>
        rw [hb] at hraw
        simp only [Option.map_some', Option.some.injEq] at hraw
        subst hraw
        simp only [Option.map_some', whenPresent, jsTrim_idem]
        exact checkTitleSchema_ok _ hv (hlen.1 raw hb)
  have h2 : whenPresent (((sanitizeTaskBody body).get "description").map jsTrim) checkDescriptionSchema
      = .ok () := by
    cases hg : (sanitizeTaskBody body).get "description" with
    | none => rfl
    | some v =>
      have hv := checkOptional_nil _ _ _ _ hdesc v hg
      have hraw := get_sanitizeTaskBody body "description"
      rw [hg] at hraw
      simp only [or_true, ↓reduceIte] at hraw
      cases hb : body.get "description" with
      | none => rw [hb] at hraw; simp at hraw
      | some raw =>
        rw [hb] at hraw
        simp only [Option.map_some', Option.some.injEq] at hraw
        subst hraw
        simp only [Option.map_some', whenPresent, jsTrim_idem]
        exact checkDescriptionSchema_ok _ (hlen.2 raw hb)
  have h3 : whenPresent ((sanitizeTaskBody body).get "status") checkStatusSchema = .ok () := by
    cases hg : (sanitizeTaskBody body).get "status" with
    | none => rfl
    | some v =>
      have hv := checkOptional_nil _ _ _ _ hstatus v hg
      simp only [decide_eq_true_eq] at hv
      simp [whenPresent, checkStatusSchema, hv]
  have h4 : whenPresent ((sanitizeTaskBody body).get "priority") checkPrioritySchema = .ok () := by
    cases hg : (sanitizeTaskBody body).get "priority" with
    | none => rfl
    | some v =>
      have hv := checkOptional_nil _ _ _ _ hprio v hg
      simp only [decide_eq_true_eq] at hv
      simp [whenPresent, checkPrioritySchema, hv]
  have h5 : ∃ r, (match ((sanitizeTaskBody body).get "dueDate").map
        (fun d => dueDateOrNull env (some d)) with
      | none => (pure none : Except JsError (Option (Option Int)))
      | some d => (castDate d).map some) = .ok r := by
    have hraw := get_sanitizeTaskBody body "dueDate"
    simp only [show ¬ ("dueDate" = "title" ∨ "dueDate" = "description") by decide, ↓reduceIte] at hraw
    rw [hraw]
    cases hb : body.get "dueDate" with
    | none => exact ⟨none, rfl⟩
    | some d =>
      obtain ⟨r, hr⟩ := castDate_dueDateOrNull env d (hdate d hb)
      exact ⟨some r, by simp [hr, Except.map]⟩
  obtain ⟨r, hr⟩ := h5
  unfold Task.findOneAndUpdate
  simp only [updateFields, h1, h2, h3, h4, ownedFilter_compile env caller id hid, bind, Except.bind,
    List.find?_nil, pure, Except.pure] at hr ⊢
  generalize Option.map (fun d => dueDateOrNull env (some d)) ((sanitizeTaskBody body).get "dueDate") = m at hr ⊢
  cases m with
  | none => rfl
  | some d =>
    simp only at hr ⊢
    rw [hr]

theorem checkId_nil (id : String) (h : isMongoId id = true) : checkId id = [] := by
  simp [checkId, h]

theorem uniqueIds_singleton (t : Task) : UniqueIds [t] := by
  intro a ha b hb _
  simp only [List.mem_singleton] at ha hb
  rw [ha, hb]

theorem findOneAndUpdate_nil_id (env : Env) (caller : User) (id1 id2 : String) (u : TaskUpdate)
    (h1 : isObjectIdHex id1 = true) (h2 : isObjectIdHex id2 = true) :
    Task.findOneAndUpdate env (ownedFilter caller id1) u []
      = Task.findOneAndUpdate env (ownedFilter caller id2) u [] := by
  unfold Task.findOneAndUpdate
  simp only [ownedFilter_compile env caller id1 h1, ownedFilter_compile env caller id2 h2,
    List.find?_nil, bind, Except.bind, pure, Except.pure]

/-- On an empty collection the three by-id handlers answer every id of twenty-four hexadecimal digits
alike. -/
theorem by_id_nil_id (env : Env) (caller : User) (id1 id2 : String) (body : JsObject)
    (x1 : isObjectIdHex id1 = true) (x2 : isObjectIdHex id2 = true) :
    (updateTask env caller id1 body []).1 = (updateTask env caller id2 body []).1
      ∧ (deleteTask env caller id1 []).1 = (deleteTask env caller id2 []).1
      ∧ (getTaskById env caller id1 []).1 = (getTaskById env caller id2 []).1 := by
  have h1 := isObjectIdHex_isMongoId id1 x1
  have h2 := isObjectIdHex_isMongoId id2 x2
  refine ⟨?_, ?_, ?_⟩
  · unfold updateTask
    simp only [validateUpdate, checkId_nil id1 h1, checkId_nil id2 h2,
      findOneAndUpdate_nil_id env caller id1 id2 _ x1 x2]
  · simp [deleteTask, checkId_nil id1 h1, checkId_nil id2 h2, Task.findOneAndDelete,
      ownedFilter_compile env caller id1 x1, ownedFilter_compile env caller id2 x2,
      bind, Except.bind, pure, Except.pure]
  · simp [getTaskById, checkId_nil id1 h1, checkId_nil id2 h2, Task.findOne,
      ownedFilter_compile env caller id1 x1, ownedFilter_compile env caller id2 x2, Except.map]

/-! ## Lemmas on listing and creating -/

theorem compile_base (env : Env) (f : TaskFilter) (p : Task → Bool) (h : f.compile env = .ok p)
    (t : Task) (ht : p t = true) : f.base t = true := by
  unfold TaskFilter.compile at h
  split at h
  · simp only [reduceCtorEq] at h
  · cases hor : f.or with
    | none =>
      simp only [hor, Except.ok.injEq] at h
      rw [h]; exact ht
    | some cs =>
      simp only [hor] at h
      split at h
      · simp only [reduceCtorEq] at h
      · simp only [Except.ok.injEq] at h
        subst h
        simp only [Bool.and_eq_true] at ht
        exact ht.1

theorem base_user (f : TaskFilter) (t : Task) (h : f.base t = true) : t.user = f.user := by
  unfold TaskFilter.base at h
  simp only [Bool.and_eq_true, decide_eq_true_eq] at h
  exact h.1.1.2

theorem find_mem (env : Env) (f : TaskFilter) (tasks found : List Task)
    (h : Task.find env f tasks = .ok found) (t : Task) (ht : t ∈ found) :
    t ∈ tasks ∧ f.base t = true := by
  unfold Task.find at h
  cases hc : f.compile env with
  | error e => simp [hc, Except.map] at h
  | ok p =>
    simp only [hc, Except.map, Except.ok.injEq] at h
    subst h
    have hmem : t ∈ tasks.filter p := (List.perm_insertionSort newerFirst _).mem_iff.mp ht
    rw [List.mem_filter] at hmem
    exact ⟨hmem.1, compile_base env f p hc t hmem.2⟩

theorem Task.create_result (env : Env) (doc : TaskInput) (tasks : List Task) (t : Task) (ts : List Task)
    (h : Task.create env doc tasks = .ok (t, ts)) : t.user = doc.user ∧ ts = tasks ++ [t] := by
  unfold Task.create at h
  simp only [bind, Except.bind, pure, Except.pure] at h
  repeat' split at h
  all_goals first
    | (simp only [reduceCtorEq] at h)
    | (simp only [Except.ok.injEq, Prod.mk.injEq] at h
       obtain ⟨h1, h2⟩ := h
       subst h1
       exact ⟨rfl, h2.symm⟩)

theorem jsTrim_empty : jsTrim "" = "" := by decide

theorem get_sanitized_trimmed (body : JsObject) (k v : String) (hk : k = "title" ∨ k = "description")
    (h : (sanitizeTaskBody body).get k = some v) : jsTrim v = v := by
  rw [get_sanitizeTaskBody, if_pos hk] at h
  cases hb : body.get k with
  | none => rw [hb] at h; simp at h
  | some raw =>
    rw [hb] at h
    simp only [Option.map_some', Option.some.injEq] at h
    rw [← h, jsTrim_idem]

theorem schemaLengths_sanitized (body : JsObject) (h : SchemaLengths body) :
    (∀ v, (sanitizeTaskBody body).get "title" = some v → utf16Length v ≤ 100)
      ∧ (∀ v, (sanitizeTaskBody body).get "description" = some v → utf16Length v ≤ 500) := by
  constructor
  · intro v hv
    rw [get_sanitizeTaskBody, if_pos (Or.inl rfl)] at hv
    cases hb : body.get "title" with
    | none => rw [hb] at hv; simp at hv
    | some raw =>
      rw [hb] at hv
      simp only [Option.map_some', Option.some.injEq] at hv
      rw [← hv]
      exact h.1 raw hb
  · intro v hv
    rw [get_sanitizeTaskBody, if_pos (Or.inr rfl)] at hv
    cases hb : body.get "description" with
    | none => rw [hb] at hv; simp at hv
    | some raw =>
      rw [hb] at hv
      simp only [Option.map_some', Option.some.injEq] at hv
      rw [← hv]
      exact h.2 raw hb

/-- On a body that passed the chains of `router.post('/')` and is within the lengths of the schema,
`Task.create` succeeds. -/
theorem create_valid (env : Env) (caller : User) (body : JsObject) (tasks : List Task)
    (hvalid : validateCreate env (sanitizeTaskBody body) = [])
    (hlens : SchemaLengths body) (hdate : DueDateParses env body) :
    ∃ t, Task.create env
        { title := (sanitizeTaskBody body).get "title"
          description := (sanitizeTaskBody body).get "description"
          status := (sanitizeTaskBody body).get "status"
          priority := (sanitizeTaskBody body).get "priority"
          dueDate := dueDateOrNull env ((sanitizeTaskBody body).get "dueDate")
          user := caller._id } tasks = .ok (t, tasks ++ [t]) := by
  simp only [validateCreate, checkOptionalFields, List.append_eq_nil] at hvalid
  obtain ⟨htitle, ⟨⟨hdesc, hstatus⟩, hprio⟩, _⟩ := hvalid
  have h1 : checkTitleSchema (jsTrim (((sanitizeTaskBody body).get "title").getD "")) = .ok () := by
    unfold checkTitleRequired at htitle
    simp only at htitle
    have hlen : isLength 3 100 (((sanitizeTaskBody body).get "title").getD "") = true := by
      by_contra hc
      simp [hc] at htitle
    cases hg : (sanitizeTaskBody body).get "title" with
    | none =>
      rw [hg] at hlen
      rw [Option.getD_none, isLength_iff] at hlen
      have := validatorLength_le ""
      rw [utf16Length_empty] at this
      omega
    | some v =>
      rw [hg] at hlen
      simp only [Option.getD_some] at hlen ⊢
      rw [get_sanitized_trimmed body "title" v (Or.inl rfl) hg]
      exact checkTitleSchema_ok v hlen ((schemaLengths_sanitized body hlens).1 v hg)
  have h2 : checkDescriptionSchema (jsTrim (((sanitizeTaskBody body).get "description").getD ""))
      = .ok () := by
    cases hg : (sanitizeTaskBody body).get "description" with
    | none => simp only [Option.getD_none, jsTrim_empty]; rfl
    | some v =>
      simp only [Option.getD_some]
      rw [get_sanitized_trimmed body "description" v (Or.inr rfl) hg]
      exact checkDescriptionSchema_ok v ((schemaLengths_sanitized body hlens).2 v hg)
  have h3 : checkStatusSchema (((sanitizeTaskBody body).get "status").getD "pending") = .ok () := by
    cases hg : (sanitizeTaskBody body).get "status" with
    | none => rfl
    | some v =>
      have hv := checkOptional_nil _ _ _ _ hstatus v hg
      simp only [decide_eq_true_eq] at hv
      simp [checkStatusSchema, hv]
  have h4 : checkPrioritySchema (((sanitizeTaskBody body).get "priority").getD "medium") = .ok () := by
    cases hg : (sanitizeTaskBody body).get "priority" with
    | none => rfl
    | some v =>
      have hv := checkOptional_nil _ _ _ _ hprio v hg
      simp only [decide_eq_true_eq] at hv
      simp [checkPrioritySchema, hv]
  have h5 : ∃ r, castDate (dueDateOrNull env ((sanitizeTaskBody body).get "dueDate")) = .ok r := by
    have hraw := get_sanitizeTaskBody body "dueDate"
    simp only [show ¬ ("dueDate" = "title" ∨ "dueDate" = "description") by decide, ↓reduceIte] at hraw
    rw [hraw]
    cases hb : body.get "dueDate" with
    | none => exact ⟨none, rfl⟩
    | some d => exact castDate_dueDateOrNull env d (hdate d hb)
  obtain ⟨r, hr⟩ := h5
  unfold Task.create
  simp only [hr, h1, h2, h3, h4, bind, Except.bind, pure, Except.pure]
  exact ⟨_, rfl⟩

/-! ## Lemmas on the header of a request -/

theorem splitChars_cons_ne (sep c : Char) (cs w : List Char) (ws : List (List Char)) (hc : c ≠ sep)
    (h : splitChars sep cs = w :: ws) : splitChars sep (c :: cs) = (c :: w) :: ws := by
  rw [splitChars, if_neg hc, h]

/-- The first piece of a split has no separator and is followed, in the input, by nothing or by a
separator and what the remaining pieces are split from. -/
theorem splitChars_decomp (sep : Char) (l : List Char) :
    ∃ w ws, splitChars sep l = w :: ws ∧ sep ∉ w
      ∧ ((l = w ∧ ws = []) ∨ ∃ r, l = w ++ sep :: r ∧ ws = splitChars sep r) := by
  induction l with
  | nil => exact ⟨[], [], rfl, by simp, Or.inl ⟨rfl, rfl⟩⟩
  | cons c cs ih =>
    by_cases hc : c = sep
    · subst hc
      exact ⟨[], splitChars c cs, by simp [splitChars], by simp, Or.inr ⟨cs, rfl, rfl⟩⟩
    · obtain ⟨w, ws, hs, hw, hrest⟩ := ih
      refine ⟨c :: w, ws, splitChars_cons_ne sep c cs w ws hc hs, ?_, ?_⟩
      · simp only [List.mem_cons, not_or]
        exact ⟨fun h => hc h.symm, hw⟩
      · rcases hrest with ⟨h1, h2⟩ | ⟨r, h1, h2⟩
        · exact Or.inl ⟨by rw [h1], h2⟩
        · exact Or.inr ⟨r, by rw [h1]; rfl, h2⟩

theorem splitChars_word (sep : Char) (w : List Char) (hw : sep ∉ w) : splitChars sep w = [w] := by
  induction w with
  | nil => rfl
  | cons c cs ih =>
    simp only [List.mem_cons, not_or] at hw
    exact splitChars_cons_ne sep c cs cs [] (fun h => hw.1 h.symm) (ih hw.2)

theorem splitChars_word_sep (sep : Char) (w r : List Char) (hw : sep ∉ w) :
    splitChars sep (w ++ sep :: r) = w :: splitChars sep r := by
  induction w with
  | nil => simp [splitChars]
  | cons c cs ih =>
    simp only [List.mem_cons, not_or] at hw
    exact splitChars_cons_ne sep c _ cs _ (fun h => hw.1 h.symm) (ih hw.2)

theorem startsWithChars_iff (l p : List Char) : startsWithChars l p = true ↔ ∃ r, l = p ++ r := by
  induction p generalizing l with
  | nil => simp [startsWithChars]
  | cons a ps ih =>
    cases l with
    | nil => simp [startsWithChars]
    | cons c cs =>
      simp only [startsWithChars, Bool.and_eq_true, beq_iff_eq, ih, List.cons_append, List.cons.injEq]
      constructor
      · rintro ⟨rfl, r, rfl⟩
        exact ⟨r, rfl, rfl⟩
      · rintro ⟨r, rfl, rfl⟩
        exact ⟨rfl, r, rfl⟩

theorem bearer_data : "Bearer ".data = "Bearer".data ++ [' '] := by decide

theorem bearer_word : ' ' ∉ "Bearer".data := by decide

/-- The pieces of a header that begins with the scheme. -/
theorem splitChars_bearer (r : List Char) :
    splitChars ' ' ("Bearer ".data ++ r) = "Bearer".data :: splitChars ' ' r := by
  rw [bearer_data, List.append_assoc]
  exact splitChars_word_sep ' ' "Bearer".data r bearer_word

theorem string_ne_empty (s : String) : s ≠ "" ↔ s.data ≠ [] := by
  constructor
  · intro h hd
    apply h
    cases s
    simp only at hd
    rw [hd]
  · rintro h rfl
    exact h rfl

theorem bearerToken_of_form (header token : String) (h : BearerForm header token) :
    header ≠ "" ∧ startsWithChars header.data "Bearer ".data = true ∧ bearerToken header = some token := by
  obtain ⟨hne, hsp, rest, hdata, hrest⟩ := h
  refine ⟨?_, ?_, ?_⟩
  · rw [string_ne_empty, hdata]
    simp [bearer_data]
  · rw [startsWithChars_iff]
    exact ⟨token.data ++ rest, by rw [hdata, List.append_assoc]⟩
  · unfold bearerToken
    rw [hdata, List.append_assoc, splitChars_bearer]
    rcases hrest with rfl | hhead
    · rw [List.append_nil, splitChars_word ' ' _ hsp]
      rfl
    · cases rest with
      | nil => simp at hhead
      | cons c r =>
        simp only [List.head?_cons, Option.some.injEq] at hhead
        subst hhead
        rw [splitChars_word_sep ' ' _ r hsp]
        simp

theorem form_of_bearerToken (header : String)
    (hstart : startsWithChars header.data "Bearer ".data = true)
    (htok : truthy (bearerToken header) = true) :
    BearerForm header ((bearerToken header).getD "") := by
  obtain ⟨r, hr⟩ := (startsWithChars_iff _ _).mp hstart
  obtain ⟨w, ws, hs, hw, hrest⟩ := splitChars_decomp ' ' r
  have hb : bearerToken header = some (String.mk w) := by
    unfold bearerToken
    rw [hr, splitChars_bearer, hs]
    simp
  rw [hb] at htok ⊢
  simp only [truthy, ne_eq, decide_eq_true_eq] at htok
  refine ⟨htok, hw, ?_⟩
  rcases hrest with ⟨h1, _⟩ | ⟨r2, h1, _⟩
  · exact ⟨[], by rw [hr, h1]; simp, Or.inl rfl⟩
  · exact ⟨' ' :: r2, by rw [hr, h1]; simp, Or.inr rfl⟩

/-- The run of the gate on a header of the Bearer form. -/
theorem gate_run_of_form (verifyToken : String → Except JsError Decoded) (db : UserDb)
    (header token : String) (h : BearerForm header token) :
    authMiddleware verifyToken db (some header) =
      match verifyToken token with
      | .error e => .verifyToken token :: gateCatch e
      | .ok decoded =>
        match User.findById db decoded.id with
        | .error e => .verifyToken token :: .findById decoded.id :: gateCatch e
        | .ok none => [.verifyToken token, .findById decoded.id, .respond userNotFound]
        | .ok (some user) => [.verifyToken token, .findById decoded.id, .setUser user, .next] := by
  obtain ⟨h1, h2, h3⟩ := bearerToken_of_form header token h
  have h4 : truthy (some token) = true := by simpa [truthy] using h.1
  unfold authMiddleware
  simp only [h1, h2, h3, h4, false_or, Bool.true_eq_false, Bool.false_eq_true, ↓reduceIte,
    Option.getD_some]

/-- The run of the gate on a request without a header of the Bearer form. -/
theorem gate_run_of_no_form (verifyToken : String → Except JsError Decoded) (db : UserDb)
    (authHeader : Option String)
    (h : ∀ header token, authHeader = some header → ¬ BearerForm header token) :
    authMiddleware verifyToken db authHeader = [.respond noTokenOrFormat]
      ∨ authMiddleware verifyToken db authHeader = [.respond noToken] := by
  cases authHeader with
  | none => exact Or.inl rfl
  | some header =>
    unfold authMiddleware
    by_cases h1 : header = "" ∨ startsWithChars header.data "Bearer ".data = false
    · left; simp only [h1, ↓reduceIte]
    · right
      simp only [h1, ↓reduceIte]
      by_cases h2 : truthy (bearerToken header) = false
      · simp only [h2, ↓reduceIte]
      · exfalso
        simp only [not_or, Bool.not_eq_false] at h1 h2
        exact h header _ rfl (form_of_bearerToken header h1.2 h2)

theorem bearerToken_empty (header : String) (rest : List Char)
    (hdata : header.data = "Bearer ".data ++ rest) (hrest : rest = [] ∨ rest.head? = some ' ') :
    bearerToken header = some "" := by
  unfold bearerToken
  rw [hdata, splitChars_bearer]
  rcases hrest with rfl | hhead
  · rfl
  · cases rest with
    | nil => simp at hhead
    | cons c r =>
      simp only [List.head?_cons, Option.some.injEq] at hhead
      subst hhead
      simp [splitChars]

theorem gateCatch_counts (e : JsError) :
    nextCalls (gateCatch e) = 0 ∧ ∃ r, responses (gateCatch e) = [r] ∧ r.success = false := by
  unfold gateCatch
  refine ⟨by simp [nextCalls], ?_⟩
  by_cases hm : e.message = "Invalid or expired token"
  · exact ⟨invalidOrExpired, by simp [responses, Effect.response, hm], rfl⟩
  · exact ⟨authenticationFailed, by simp [responses, Effect.response, hm], rfl⟩

theorem form_unique (header t1 t2 : String) (h1 : BearerForm header t1) (h2 : BearerForm header t2) :
    t1 = t2 := by
  have a := (bearerToken_of_form header t1 h1).2.2
  have b := (bearerToken_of_form header t2 h2).2.2
  rw [a] at b
  exact Option.some.inj b

theorem gate_run_verify_error (verifyToken : String → Except JsError Decoded) (db : UserDb)
    (header token : String) (e : JsError) (h : BearerForm header token)
    (hv : verifyToken token = .error e) :
    authMiddleware verifyToken db (some header) = .verifyToken token :: gateCatch e := by
  rw [gate_run_of_form verifyToken db header token h]
  simp only [hv]

theorem gate_run_store_error (verifyToken : String → Except JsError Decoded) (db : UserDb)
    (header token : String) (decoded : Decoded) (e : JsError) (h : BearerForm header token)
    (hv : verifyToken token = .ok decoded) (hu : User.findById db decoded.id = .error e) :
    authMiddleware verifyToken db (some header)
      = .verifyToken token :: .findById decoded.id :: gateCatch e := by
  rw [gate_run_of_form verifyToken db header token h]
  simp only [hv, hu]

theorem gate_run_unknown (verifyToken : String → Except JsError Decoded) (db : UserDb)
    (header token : String) (decoded : Decoded) (h : BearerForm header token)
    (hv : verifyToken token = .ok decoded) (hu : User.findById db decoded.id = .ok none) :
    authMiddleware verifyToken db (some header)
      = [.verifyToken token, .findById decoded.id, .respond userNotFound] := by
  rw [gate_run_of_form verifyToken db header token h]
  simp only [hv, hu]

theorem gate_run_pass (verifyToken : String → Except JsError Decoded) (db : UserDb)
    (header token : String) (decoded : Decoded) (user : User) (h : BearerForm header token)
    (hv : verifyToken token = .ok decoded) (hu : User.findById db decoded.id = .ok (some user)) :
    authMiddleware verifyToken db (some header)
      = [.verifyToken token, .findById decoded.id, .setUser user, .next] := by
  rw [gate_run_of_form verifyToken db header token h]
  simp only [hv, hu]

/-! ## Lemmas on what the gate attaches -/

theorem find_updateFirstUser (p : User → Bool) (g : User → User) (hg : ∀ u, p (g u) = p u)
    (l : List User) : (updateFirstUser p g l).find? p = (l.find? p).map g := by
  induction l with
  | nil => rfl
  | cons u us ih =>
    unfold updateFirstUser
    by_cases hp : p u = true
    · simp [hp, List.find?_cons, hg]
    · simp only [hp, Bool.false_eq_true, ↓reduceIte, List.find?_cons]
      exact ih

theorem findById_some (db : UserDb) (id : String) (user : User) :
    User.findById db id = .ok (some user) ↔
      db.fault = none ∧ isObjectIdHex id = true
        ∧ ∃ stored, db.users.find? (fun u => decide (u._id = castObjectId id)) = some stored
            ∧ user = stored.withoutPassword := by
  unfold User.findById
  cases hf : db.fault with
  | some e => simp
  | none =>
    by_cases hid : isObjectIdHex id = true
    · simp only [hid, ↓reduceIte, Except.ok.injEq, Option.map_eq_some', true_and]
      constructor
      · rintro ⟨s, hs, rfl⟩
        exact ⟨s, hs, rfl⟩
      · rintro ⟨s, hs, rfl⟩
        exact ⟨s, hs, rfl⟩
    · simp [hid]

theorem attachedUser_of_catch (pre : List Effect) (e : JsError)
    (hpre : ∀ x ∈ pre, x.assigned = none) : attachedUser (pre ++ gateCatch e) = none := by
  unfold attachedUser
  have : (pre ++ gateCatch e).filterMap Effect.assigned = [] := by
    rw [List.filterMap_eq_nil_iff]
    intro x hx
    rw [List.mem_append] at hx
    rcases hx with hx | hx
    · exact hpre x hx
    · simp only [gateCatch, List.mem_cons, List.mem_singleton, List.not_mem_nil, or_false] at hx
      rcases hx with rfl | rfl <;> rfl
  rw [this]
  rfl

/-- What the gate attaches is the stored identity of the verified id, password excluded. -/
theorem attached_is_stored (verifyToken : String → Except JsError Decoded) (db : UserDb)
    (authHeader : Option String) (user : User)
    (h : attachedUser (authMiddleware verifyToken db authHeader) = some user) :
    ∃ header token decoded stored, authHeader = some header ∧ BearerForm header token
      ∧ verifyToken token = .ok decoded ∧ User.findById db decoded.id = .ok (some user)
      ∧ db.users.find? (fun u => decide (u._id = castObjectId decoded.id)) = some stored
      ∧ user = stored.withoutPassword := by
  by_cases hform : ∃ header token, authHeader = some header ∧ BearerForm header token
  · obtain ⟨header, token, rfl, hf⟩ := hform
    cases hv : verifyToken token with
    | error e =>
      rw [gate_run_verify_error verifyToken db header token e hf hv] at h
      have := attachedUser_of_catch [.verifyToken token] e (by simp [Effect.assigned])
      simp only [List.singleton_append] at this
      rw [this] at h
      cases h
    | ok decoded =>
      cases hu : User.findById db decoded.id with
      | error e =>
        rw [gate_run_store_error verifyToken db header token decoded e hf hv hu] at h
        have := attachedUser_of_catch [.verifyToken token, .findById decoded.id] e (by simp [Effect.assigned])
        simp only [List.cons_append, List.nil_append] at this
        rw [this] at h
        cases h
      | ok found =>
        cases found with
        | none =>
          rw [gate_run_unknown verifyToken db header token decoded hf hv hu] at h
          simp [attachedUser, Effect.assigned] at h
        | some u =>
          rw [gate_run_pass verifyToken db header token decoded u hf hv hu] at h
          simp only [attachedUser, List.filterMap_cons, List.filterMap_nil, List.getLast?_singleton,
            Effect.assigned, Option.some.injEq] at h
          subst h
          obtain ⟨_, _, stored, hs, hw⟩ := (findById_some db decoded.id u).mp hu
          exact ⟨header, token, decoded, stored, rfl, hf, hv, hu, hs, hw⟩
  · have hno : ∀ header token, authHeader = some header → ¬ BearerForm header token :=
      fun header token hh hf => hform ⟨header, token, hh, hf⟩
    rcases gate_run_of_no_form verifyToken db authHeader hno with hrun | hrun
    · rw [hrun] at h; simp [attachedUser, Effect.assigned] at h
    · rw [hrun] at h; simp [attachedUser, Effect.assigned] at h

/-! ## Lemmas on the rejections of the gate -/

theorem responses_catch (pre : List Effect) (e : JsError) (hpre : ∀ x ∈ pre, x.response = none) :
    responses (pre ++ gateCatch e)
      = [if e.message = "Invalid or expired token" then invalidOrExpired else authenticationFailed] := by
  unfold responses
  rw [List.filterMap_append]
  have : pre.filterMap Effect.response = [] := by
    rw [List.filterMap_eq_nil_iff]
    exact hpre
  rw [this]
  simp [gateCatch, Effect.response]

theorem findById_error_message (db : UserDb) (id : String) (e : JsError) (hs : StoreMessage db)
    (h : User.findById db id = .error e) : e.message ≠ "Invalid or expired token" := by
  unfold User.findById at h
  cases hf : db.fault with
  | some e2 =>
    simp only [hf, Except.error.injEq] at h
    subst h
    exact hs e2 hf
  | none =>
    simp only [hf] at h
    split at h
    · cases h
    · simp only [Except.error.injEq] at h
      subst h
      decide

/-- Each failure class is answered with one response, one of those the class has. -/
theorem class_response (verifyToken : String → Except JsError Decoded) (db : UserDb)
    (authHeader : Option String) (c : GateFailure)
    (hv : c = .invalidToken → VerifierMessage verifyToken) (hs : c = .unavailable → StoreMessage db)
    (h : FailsAs verifyToken db authHeader c) :
    ∃ r, responses (authMiddleware verifyToken db authHeader) = [r] ∧ r ∈ classResponses c := by
  cases c with
  | missing =>
    rcases gate_run_of_no_form verifyToken db authHeader h with hrun | hrun
    · exact ⟨noTokenOrFormat, by rw [hrun]; rfl, by simp [classResponses]⟩
    · exact ⟨noToken, by rw [hrun]; rfl, by simp [classResponses]⟩
  | invalidToken =>
    obtain ⟨header, token, e, rfl, hf, he⟩ := h
    refine ⟨invalidOrExpired, ?_, by simp [classResponses]⟩
    rw [gate_run_verify_error verifyToken db header token e hf he]
    have := responses_catch [.verifyToken token] e (by simp [Effect.response])
    simp only [List.singleton_append] at this
    rw [this, if_pos (hv rfl token e he)]
  | unknownIdentity =>
    obtain ⟨header, token, decoded, rfl, hf, hd, hu⟩ := h
    refine ⟨userNotFound, ?_, by simp [classResponses]⟩
    rw [gate_run_unknown verifyToken db header token decoded hf hd hu]
    rfl
  | unavailable =>
    obtain ⟨header, token, decoded, e, rfl, hf, hd, hu⟩ := h
    refine ⟨authenticationFailed, ?_, by simp [classResponses]⟩
    rw [gate_run_store_error verifyToken db header token decoded e hf hd hu]
    have := responses_catch [.verifyToken token, .findById decoded.id] e (by simp [Effect.response])
    simp only [List.cons_append, List.nil_append] at this
    rw [this, if_neg (findById_error_message db decoded.id e (hs rfl) hu)]

theorem classResponses_apart (c1 c2 : GateFailure) (hne : c1 ≠ c2) (r1 r2 : Response)
    (h1 : r1 ∈ classResponses c1) (h2 : r2 ∈ classResponses c2) :
    (r1.status, r1.message) ≠ (r2.status, r2.message) := by
  cases c1 <;> cases c2 <;> first
    | exact absurd rfl hne
    | (simp only [classResponses, List.mem_cons, List.mem_singleton, List.not_mem_nil, or_false] at h1 h2
       rcases h1 with rfl | rfl <;> rcases h2 with rfl | rfl <;> decide)

theorem sampleVerify_message : VerifierMessage sampleVerify := by
  intro token e h
  unfold sampleVerify at h
  split at h
  · cases h
  · simp only [Except.error.injEq] at h
    rw [← h]

theorem bearer_bad : BearerForm "Bearer bad" "bad" :=
  ⟨by decide, by decide, [], by decide, Or.inl rfl⟩

theorem bearer_good : BearerForm "Bearer good" "good" :=
  ⟨by decide, by decide, [], by decide, Or.inl rfl⟩

theorem ghostVerify_message : VerifierMessage ghostVerify := by
  intro token e h
  unfold ghostVerify at h
  split at h
  · cases h
  · unfold sampleVerify at h
    split at h
    · cases h
    · simp only [Except.error.injEq] at h
      rw [← h]

theorem bearer_ghost : BearerForm "Bearer ghost" "ghost" :=
  ⟨by decide, by decide, [], by decide, Or.inl rfl⟩

theorem bearer_old : BearerForm "Bearer old" "old" :=
  ⟨by decide, by decide, [], by decide, Or.inl rfl⟩

theorem bearer_torn : BearerForm "Bearer torn" "torn" :=
  ⟨by decide, by decide, [], by decide, Or.inl rfl⟩

/-! ## Lemmas on updates -/

/-- What a successful `findOneAndUpdate` with the owner-scoped filter returns. -/
theorem findOneAndUpdate_some (env : Env) (caller : User) (id : String) (u : TaskUpdate)
    (tasks tasks1 : List Task) (t1 : Task)
    (h : Task.findOneAndUpdate env (ownedFilter caller id) u tasks = .ok (some t1, tasks1)) :
    ∃ t0 d, tasks.find? (ownedFilter caller id).base = some t0
      ∧ (u.dueDate = none → d = none)
      ∧ t1 = t0.applyUpdate env (u.title.map jsTrim) (u.description.map jsTrim) u.status u.priority d
      ∧ tasks1 = replaceFirst (ownedFilter caller id).base t1 tasks := by
  unfold Task.findOneAndUpdate at h
  have hx : isObjectIdHex id = true := by
    cases hx : isObjectIdHex id with
    | true => rfl
    | false =>
      simp only [ownedFilter_compile_error env caller id hx, bind, Except.bind, pure, Except.pure,
        Except.map] at h
      repeat' split at h
      all_goals simp only [reduceCtorEq] at h
  simp only [ownedFilter_compile env caller id hx, bind, Except.bind, pure, Except.pure] at h
  cases hdd : u.dueDate with
  | none =>
    simp only [hdd] at h
    repeat' split at h
    all_goals first
      | (simp only [Except.ok.injEq, Prod.mk.injEq, reduceCtorEq, false_and] at h; done)
      | (simp only [Except.ok.injEq, Prod.mk.injEq, Option.some.injEq] at h
         obtain ⟨ht, hts⟩ := h
         rename_i t0 hf
         exact ⟨t0, none, hf, fun _ => rfl, ht.symm, by rw [← hts, ht]⟩)
  | some dv =>
    simp only [hdd] at h
    cases hc : castDate dv with
    | error e => simp [hc, Except.map] at h
    | ok d =>
      simp only [hc, Except.map] at h
      repeat' split at h
      all_goals first
        | (simp only [Except.ok.injEq, Prod.mk.injEq, reduceCtorEq, false_and] at h; done)
        | (simp only [Except.ok.injEq, Prod.mk.injEq, Option.some.injEq] at h
           obtain ⟨ht, hts⟩ := h
           rename_i t0 hf
           exact ⟨t0, some d, hf, (by intro hn; cases hn), ht.symm, by rw [← hts, ht]⟩)

theorem get_sanitizeTaskBody_none (body : JsObject) (k : String) (h : body.get k = none) :
    (sanitizeTaskBody body).get k = none := by
  rw [get_sanitizeTaskBody, h]
  simp

theorem updateFields_isEmpty (env : Env) (body : JsObject) (h : ∀ k ∈ taskKeys, body.get k = none) :
    (updateFields env (sanitizeTaskBody body)).isEmpty = true := by
  have h1 := get_sanitizeTaskBody_none body "title" (h _ (by decide))
  have h2 := get_sanitizeTaskBody_none body "description" (h _ (by decide))
  have h3 := get_sanitizeTaskBody_none body "status" (h _ (by decide))
  have h4 := get_sanitizeTaskBody_none body "priority" (h _ (by decide))
  have h5 := get_sanitizeTaskBody_none body "dueDate" (h _ (by decide))
  simp [updateFields, TaskUpdate.isEmpty, h1, h2, h3, h4, h5]

theorem validateUpdate_no_keys (env : Env) (id : String) (body : JsObject)
    (h : ∀ k ∈ taskKeys, body.get k = none) :
    validateUpdate env id (sanitizeTaskBody body) = checkId id := by
  have h1 := get_sanitizeTaskBody_none body "title" (h _ (by decide))
  have h2 := get_sanitizeTaskBody_none body "description" (h _ (by decide))
  have h3 := get_sanitizeTaskBody_none body "status" (h _ (by decide))
  have h4 := get_sanitizeTaskBody_none body "priority" (h _ (by decide))
  have h5 := get_sanitizeTaskBody_none body "dueDate" (h _ (by decide))
  simp [validateUpdate, checkOptionalFields, checkOptional, h1, h2, h3, h4, h5]

/-! ## Lemmas on created tasks and listing -/

/-- The fields of a created document. -/
theorem Task.create_fields (env : Env) (doc : TaskInput) (tasks : List Task) (t : Task) (ts : List Task)
    (h : Task.create env doc tasks = .ok (t, ts)) :
    t.title = jsTrim (doc.title.getD "") ∧ t.description = jsTrim (doc.description.getD "")
      ∧ t.status = doc.status.getD "pending" ∧ t.priority = doc.priority.getD "medium"
      ∧ castDate doc.dueDate = .ok t.dueDate := by
  unfold Task.create at h
  simp only [bind, Except.bind, pure, Except.pure] at h
  cases hc : castDate doc.dueDate with
  | error e => simp [hc] at h
  | ok d =>
    simp only [hc] at h
    repeat' split at h
    all_goals first
      | (simp only [reduceCtorEq] at h)
      | (simp only [Except.ok.injEq, Prod.mk.injEq] at h
         obtain ⟨h1, _⟩ := h
         subst h1
         exact ⟨rfl, rfl, rfl, rfl, rfl⟩)

theorem jsTrim_getD_map (o : Option String) : jsTrim ((o.map jsTrim).getD "") = jsTrim (o.getD "") := by
  cases o with
  | none => rfl
  | some v => simp [jsTrim_idem]

theorem castDate_dueDateOrNull_eq (env : Env) (o : Option String) (r : Option Int)
    (h : castDate (dueDateOrNull env o) = .ok r) :
    r = submittedDate env o := by
  unfold submittedDate
  cases o with
  | none =>
    simp only [dueDateOrNull, castDate, Except.ok.injEq] at h
    exact h.symm
  | some d =>
    by_cases hd : d = ""
    · simp only [dueDateOrNull, hd, ne_eq, not_true_eq_false, ↓reduceIte, castDate, Except.ok.injEq] at h
      simp [hd, ← h]
    · simp only [dueDateOrNull, ne_eq, hd, not_false_eq_true, ↓reduceIte, newDate] at h ⊢
      cases hp : env.parseDate d with
      | none => simp [hp, castDate] at h
      | some ms =>
        simp only [hp, castDate, Except.ok.injEq] at h
        exact h.symm

/-- A task of the caller in the collection is in the caller's unfiltered list. -/
theorem mem_getTasks_all (env : Env) (caller : User) (tasks : List Task) (t : Task) (ht : t ∈ tasks)
    (hu : t.user = caller._id) : t ∈ (getTasks env caller [] tasks).1.taskList := by
  have hf : Task.find env (listFilter caller []) tasks
      = .ok ((tasks.filter (listFilter caller []).base).insertionSort newerFirst) := rfl
  unfold getTasks
  rw [hf]
  simp only [Response.taskList]
  rw [(List.perm_insertionSort newerFirst _).mem_iff, List.mem_filter]
  refine ⟨ht, ?_⟩
  simp [listFilter, TaskFilter.base, JsObject.get, truthy, hu]

/-- A blank dueDate is a present one: the chain validates it, and a validator that does not take the
empty string for a date rejects the request. -/
theorem blank_dueDate_rejected (env : Env) (caller : User) (id : String) (body : JsObject)
    (tasks : List Task) (hiso : env.isISO8601 "" = false) (hblank : body.get "dueDate" = some "") :
    ((createTask env caller body tasks).1.status = 400 ∧ (createTask env caller body tasks).2 = tasks)
      ∧ (updateTask env caller id body tasks).1.status = 400
      ∧ (updateTask env caller id body tasks).2 = tasks := by
  have hs : (sanitizeTaskBody body).get "dueDate" = some "" := by
    rw [get_sanitizeTaskBody, if_neg (by decide), hblank]
  have hd : checkOptional (sanitizeTaskBody body) "dueDate" "Due date must be a valid date" env.isISO8601
      ≠ [] := by
    simp [checkOptional, hs, hiso]
  have hc : validateCreate env (sanitizeTaskBody body) ≠ [] := by
    intro h
    simp only [validateCreate, checkOptionalFields, List.append_eq_nil] at h
    exact hd h.2.2
  have hu : validateUpdate env id (sanitizeTaskBody body) ≠ [] := by
    intro h
    simp only [validateUpdate, checkOptionalFields, List.append_eq_nil] at h
    exact hd h.2.2
  refine ⟨?_, ?_⟩
  · unfold createTask
    simp only [hc, ne_eq, not_false_eq_true, ↓reduceIte, and_self]
  · unfold updateTask
    simp only [hu, ne_eq, not_false_eq_true, ↓reduceIte, and_self]

/-- What the list handler returns, for a filter whose patterns the engine takes. -/
theorem mem_getTasks (env : Env) (caller : User) (query : JsObject) (tasks : List Task)
    (p : Task → Bool) (hp : (listFilter caller query).compile env = .ok p) (t : Task) :
    t ∈ (getTasks env caller query tasks).1.taskList ↔ t ∈ tasks ∧ p t = true := by
  unfold getTasks Task.find
  simp only [hp, Except.map, Response.taskList]
  rw [(List.perm_insertionSort newerFirst _).mem_iff, List.mem_filter]

/-- With a search string alone, the list holds the caller's tasks whose title or description the
regular expression `search`, with option `i`, matches. -/
theorem mem_getTasks_search (env : Env) (caller : User) (search : String) (tasks : List Task)
    (m : String → Bool) (hs : search ≠ "") (hm : env.regex search "i" = some m) (t : Task) :
    t ∈ (getTasks env caller [("search", search)] tasks).1.taskList
      ↔ t ∈ tasks ∧ t.user = caller._id ∧ (m t.title = true ∨ m t.description = true) := by
  have hp : (listFilter caller [("search", search)]).compile env
      = .ok fun t => (listFilter caller [("search", search)]).base t
          && ([fun t : Task => m (t.field "title"), fun t : Task => m (t.field "description")]).any
              fun p => p t := by
    have hmap : List.mapM (RegexClause.compile env)
        [⟨"title", search, "i"⟩, ⟨"description", search, "i"⟩]
        = some [fun t : Task => m (t.field "title"), fun t : Task => m (t.field "description")] := by
      simp [List.mapM, List.mapM.loop, RegexClause.compile, hm]
    simp only [TaskFilter.compile, TaskFilter.idCasts, Bool.true_eq_false, listFilter, JsObject.get,
      List.lookup, truthy, hs, ne_eq, not_false_eq_true, decide_True, ↓reduceIte, Option.getD_some,
      beq_self_eq_true, hmap]
  rw [mem_getTasks env caller _ tasks _ hp]
  simp [listFilter, TaskFilter.base, JsObject.get, List.lookup, truthy, hs, Task.field]

/-! ## Lemmas on the acceptance of a create -/

theorem checkOptional_eq_nil_iff (body : JsObject) (field msg : String) (ok : String → Bool) :
    checkOptional body field msg ok = [] ↔ ∀ v, body.get field = some v → ok v = true := by
  unfold checkOptional
  cases hg : body.get field with
  | none => simp
  | some v =>
    by_cases hok : ok v = true
    · simp [hok]
    · simp [hok]

theorem validateCreate_iff (env : Env) (body : JsObject) (hdue : body.get "dueDate" = none) :
    validateCreate env (sanitizeTaskBody body) = [] ↔ CreateAcceptable body := by
  have hd : (sanitizeTaskBody body).get "dueDate" = none := get_sanitizeTaskBody_none body _ hdue
  have g (k : String) (hk : ¬ (k = "title" ∨ k = "description")) :
      (sanitizeTaskBody body).get k = body.get k := by
    rw [get_sanitizeTaskBody, if_neg hk]
  have ht : (sanitizeTaskBody body).get "title" = (body.get "title").map jsTrim := by
    rw [get_sanitizeTaskBody, if_pos (Or.inl rfl)]
  have hde : (sanitizeTaskBody body).get "description" = (body.get "description").map jsTrim := by
    rw [get_sanitizeTaskBody, if_pos (Or.inr rfl)]
  simp only [validateCreate, checkOptionalFields, List.append_eq_nil, checkOptional_eq_nil_iff, hd,
    g "status" (by decide), g "priority" (by decide), ht, hde, CreateAcceptable, checkTitleRequired]
  constructor
  · rintro ⟨h1, ⟨⟨h2, h3⟩, h4⟩, _⟩
    refine ⟨?_, ?_, ?_, ?_⟩
    · cases hb : body.get "title" with
      | none => simp [hb, isLength, validatorLength_empty] at h1
      | some raw =>
        refine ⟨raw, rfl, ?_⟩
        have : isLength 3 100 (jsTrim raw) = true := by
          by_contra hc
          simp [hb, hc] at h1
        exact (isLength_iff _ _ _).mp this
    · intro raw hraw
      have := h2 (jsTrim raw) (by simp [hraw])
      exact ((isLength_iff _ _ _).mp this).2
    · intro v hv
      simpa using h3 v hv
    · intro v hv
      simpa using h4 v hv
  · rintro ⟨⟨raw, hraw, hlen⟩, h2, h3, h4⟩
    refine ⟨?_, ⟨⟨?_, ?_⟩, ?_⟩, ?_⟩
    · simp [hraw, (isLength_iff 3 100 (jsTrim raw)).mpr hlen]
    · intro v hv
      cases hb : body.get "description" with
      | none => simp [hb] at hv
      | some r =>
        simp only [hb, Option.map_some', Option.some.injEq] at hv
        subst hv
        exact (isLength_iff _ _ _).mpr ⟨Nat.zero_le _, h2 r hb⟩
    · intro v hv
      simpa using h3 v hv
    · intro v hv
      simpa using h4 v hv
    · intro v hv
      cases hv

theorem dueDateParses_of_none (env : Env) (body : JsObject) (h : body.get "dueDate" = none) :
    DueDateParses env body := by
  intro d hd
  rw [h] at hd
  cases hd

/-- A body that passes the chains of `router.post('/')` and is within the lengths of the schema is
answered with the created task. -/
theorem createTask_valid (env : Env) (caller : User) (body : JsObject) (tasks : List Task)
    (hvalid : validateCreate env (sanitizeTaskBody body) = []) (hlens : SchemaLengths body)
    (hdate : DueDateParses env body) :
    ∃ t, createTask env caller body tasks
          = (⟨201, true, some "Task created successfully", .task t⟩, tasks ++ [t])
      ∧ t.title = jsTrim ((body.get "title").getD "")
      ∧ t.description = jsTrim ((body.get "description").getD "")
      ∧ t.status = (body.get "status").getD "pending"
      ∧ t.priority = (body.get "priority").getD "medium"
      ∧ t.dueDate = submittedDate env (body.get "dueDate") := by
  obtain ⟨t, ht⟩ := create_valid env caller body tasks hvalid hlens hdate
  obtain ⟨f1, f2, f3, f4, f5⟩ := Task.create_fields env _ tasks t _ ht
  have g (k : String) (hk : ¬ (k = "title" ∨ k = "description")) :
      (sanitizeTaskBody body).get k = body.get k := by
    rw [get_sanitizeTaskBody, if_neg hk]
  refine ⟨t, ?_, ?_, ?_, ?_, ?_, ?_⟩
  · unfold createTask
    simp only [hvalid, ne_eq, not_true_eq_false, ↓reduceIte, ht]
  · rw [f1]
    simp only [get_sanitizeTaskBody, true_or, ↓reduceIte]
    exact jsTrim_getD_map _
  · rw [f2]
    simp only [get_sanitizeTaskBody, or_true, ↓reduceIte]
    exact jsTrim_getD_map _
  · rw [f3, g "status" (by decide)]
  · rw [f4, g "priority" (by decide)]
  · simp only [g "dueDate" (by decide)] at f5
    exact castDate_dueDateOrNull_eq env _ _ f5

/-! ## Lemmas on deleting -/

theorem uniqueIds_of_distinct (tasks : List Task) (h : DistinctIds tasks) : UniqueIds tasks := by
  intro a ha b hb hab
  exact List.inj_on_of_nodup_map h ha hb hab

theorem find_owned_some (caller : User) (id : String) (t : Task) (tasks : List Task)
    (hmem : t ∈ tasks) (huniq : UniqueIds tasks) (hcast : t._id = castObjectId id)
    (hown : t.user = caller._id) :
    tasks.find? (ownedFilter caller id).base = some t := by
  cases hf : tasks.find? (ownedFilter caller id).base with
  | none =>
    rw [List.find?_eq_none] at hf
    exact absurd ((ownedFilter_base caller id t).mpr ⟨hcast, hown⟩) (hf t hmem)
  | some x =>
    have hx := (ownedFilter_base caller id x).mp (List.find?_some hf)
    rw [huniq x (List.mem_of_find?_eq_some hf) t hmem (hx.1.trans hcast.symm)]

theorem removeFirst_eq_erase (p : Task → Bool) (t : Task) (tasks : List Task)
    (h : tasks.find? p = some t) : removeFirst p tasks = tasks.erase t := by
  induction tasks with
  | nil => simp at h
  | cons x xs ih =>
    unfold removeFirst
    by_cases hp : p x = true
    · simp only [List.find?_cons, hp, Option.some.injEq] at h
      subst h
      simp [hp]
    · simp only [List.find?_cons, hp] at h
      have hne : x ≠ t := by
        rintro rfl
        exact hp (List.find?_some h)
      simp only [hp, Bool.false_eq_true, ↓reduceIte]
      rw [ih h, List.erase_cons_tail (by simpa using hne)]

theorem mem_of_mem_getTasks (env : Env) (caller : User) (query : JsObject) (tasks : List Task)
    (t : Task) (h : t ∈ (getTasks env caller query tasks).1.taskList) : t ∈ tasks := by
  cases hc : (listFilter caller query).compile env with
  | error e =>
    have : (getTasks env caller query tasks).1.taskList = [] := by
      simp [getTasks, Task.find, hc, Except.map, Response.taskList]
    rw [this] at h
    cases h
  | ok p => exact ((mem_getTasks env caller query tasks p hc t).mp h).1

/-! ## Lemmas on the profile routes -/

theorem profileView_keys (u : User) : (profileView u).map Prod.fst = profileKeys := rfl

theorem putProfile_payload (env : Env) (user : User) (body : JsObject) (db : UserDb)
    (obj : List (String × JsValue)) (h : (putProfile env user body db).1.payload = .user obj) :
    ∃ updated, obj = profileView updated := by
  unfold putProfile at h
  simp only at h
  repeat' split at h
  all_goals first
    | (injection h with h
       exact ⟨_, h.symm⟩)
    | (cases h)

/-! ## Lemmas on profile updates -/

theorem get_onlyProfileKeys (body : JsObject) (k : String) (hk : k ∈ profileUpdateKeys) :
    (onlyProfileKeys body).get k = body.get k := by
  unfold onlyProfileKeys JsObject.get
  induction body with
  | nil => rfl
  | cons kv rest ih =>
    obtain ⟨a, v⟩ := kv
    by_cases ha : a ∈ profileUpdateKeys
    · rw [List.filter_cons_of_pos (by simpa using ha)]
      by_cases hka : k = a
      · subst hka
        simp [List.lookup_cons]
      · have hb : (k == a) = false := by simpa using hka
        simp only [List.lookup_cons, hb]
        exact ih
    · rw [List.filter_cons_of_neg (by simpa using ha)]
      have hka : k ≠ a := by
        rintro rfl
        exact ha hk
      have hb : (k == a) = false := by simpa using hka
      simp only [List.lookup_cons, hb]
      exact ih

theorem get_sanitizeProfileBody (body : JsObject) (k : String) :
    (sanitizeProfileBody body).get k
      = if k = "name" ∨ k = "bio" ∨ k = "avatar" then (body.get k).map jsTrim else body.get k := by
  unfold sanitizeProfileBody JsObject.get
  induction body with
  | nil => simp
  | cons kv rest ih =>
    obtain ⟨a, v⟩ := kv
    rw [List.map_cons]
    by_cases h : a = "name" ∨ a = "bio" ∨ a = "avatar"
    · rw [if_pos (show (a, v).1 = "name" ∨ (a, v).1 = "bio" ∨ (a, v).1 = "avatar" from h)]
      by_cases hk : k = a
      · subst hk
        simp [List.lookup_cons, h]
      · have hb : (k == a) = false := by simpa using hk
        simp only [List.lookup_cons, hb]
        exact ih
    · rw [if_neg (show ¬ ((a, v).1 = "name" ∨ (a, v).1 = "bio" ∨ (a, v).1 = "avatar") from h)]
      by_cases hk : k = a
      · subst hk
        simp [List.lookup_cons, h]
      · have hb : (k == a) = false := by simpa using hk
        simp only [List.lookup_cons, hb]
        exact ih

/-- The profile update reads its body through the three keys alone. -/
theorem putProfile_congr (env : Env) (user : User) (body1 body2 : JsObject) (db : UserDb)
    (h : ∀ k ∈ profileUpdateKeys, body1.get k = body2.get k) :
    putProfile env user body1 db = putProfile env user body2 db := by
  have g (k : String) (hk : k ∈ profileUpdateKeys) :
      (sanitizeProfileBody body1).get k = (sanitizeProfileBody body2).get k := by
    rw [get_sanitizeProfileBody, get_sanitizeProfileBody, h k hk]
  have hv : validateProfile env (sanitizeProfileBody body1)
      = validateProfile env (sanitizeProfileBody body2) := by
    simp only [validateProfile, checkOptional, g "name" (by decide), g "bio" (by decide),
      g "avatar" (by decide)]
  unfold putProfile
  simp only [hv, g "name" (by decide), g "bio" (by decide), g "avatar" (by decide)]

theorem map_updateFirstUser {β : Type} (p : User → Bool) (g : User → User) (f : User → β)
    (hf : ∀ u, f (g u) = f u) (l : List User) : (updateFirstUser p g l).map f = l.map f := by
  induction l with
  | nil => rfl
  | cons u us ih =>
    unfold updateFirstUser
    by_cases hp : p u = true
    · simp [hp, hf]
    · simp only [hp, Bool.false_eq_true, ↓reduceIte, List.map_cons, ih]

theorem findByIdAndUpdate_credentials (now : Int) (db db1 : UserDb) (id : String) (f : ProfileUpdate)
    (o : Option User) (h : User.findByIdAndUpdate now db id f = .ok (o, db1)) :
    db1.users.map User.credentials = db.users.map User.credentials ∧ db1.fault = db.fault := by
  unfold User.findByIdAndUpdate at h
  cases hf : db.fault with
  | some e => simp [hf] at h
  | none =>
    simp only [hf, bind, Except.bind, pure, Except.pure] at h
    repeat' split at h
    all_goals first
      | (simp only [reduceCtorEq] at h)
      | (simp only [Except.ok.injEq, Prod.mk.injEq] at h
         obtain ⟨_, h2⟩ := h
         subst h2
         first
           | exact ⟨rfl, hf⟩
           | exact ⟨map_updateFirstUser (fun u => decide (u._id = id)) (User.applyUpdate now f)
               User.credentials (fun u => rfl) db.users, rfl⟩)

/-! ## Lemmas on filtered lists -/

/-- The filter of a list request whose only usable parameter is a status. -/
theorem listFilter_status (caller : User) (query : JsObject) (s : String)
    (hs : query.get "status" = some s) (hne : s ≠ "")
    (hp : truthy (query.get "priority") = false) (hq : truthy (query.get "search") = false) :
    listFilter caller query
      = { _id := none, user := caller._id, status := some s, priority := none, or := none } := by
  simp only [listFilter, hs, hp, hq]
  simp [truthy, hne]

/-- The filter of a list request whose only usable parameter is a priority. -/
theorem listFilter_priority (caller : User) (query : JsObject) (s : String)
    (hs : query.get "priority" = some s) (hne : s ≠ "")
    (hp : truthy (query.get "status") = false) (hq : truthy (query.get "search") = false) :
    listFilter caller query
      = { _id := none, user := caller._id, status := none, priority := some s, or := none } := by
  simp only [listFilter, hs, hp, hq]
  simp [truthy, hne]

/-- The answer of the list handler for a filter whose patterns the engine takes. -/
theorem getTasks_of_compile (env : Env) (caller : User) (query : JsObject) (tasks : List Task)
    (p : Task → Bool) (hp : (listFilter caller query).compile env = .ok p) :
    getTasks env caller query tasks
      = (⟨200, true, none, .tasks ((tasks.filter p).insertionSort newerFirst).length
          ((tasks.filter p).insertionSort newerFirst)⟩, tasks) := by
  unfold getTasks Task.find
  simp only [hp, Except.map]

/-! ## Lemmas on the token the gate verifies -/

theorem gateCatch_no_verify (e : JsError) (token : String) : Effect.verifyToken token ∉ gateCatch e := by
  simp [gateCatch]

/-- The verifier is called with the token of the Bearer form and with nothing else. -/
theorem verified_token_form (verifyToken : String → Except JsError Decoded) (db : UserDb)
    (authHeader : Option String) (token : String)
    (h : Effect.verifyToken token ∈ authMiddleware verifyToken db authHeader) :
    ∃ header, authHeader = some header ∧ BearerForm header token := by
  by_cases hform : ∃ header tok, authHeader = some header ∧ BearerForm header tok
  · obtain ⟨header, tok, rfl, hf⟩ := hform
    refine ⟨header, rfl, ?_⟩
    have htok : token = tok := by
      cases hv : verifyToken tok with
      | error e =>
        rw [gate_run_verify_error verifyToken db header tok e hf hv] at h
        simpa [gateCatch] using h
      | ok decoded =>
        cases hu : User.findById db decoded.id with
        | error e =>
          rw [gate_run_store_error verifyToken db header tok decoded e hf hv hu] at h
          simpa [gateCatch] using h
        | ok found =>
          cases found with
          | none =>
            rw [gate_run_unknown verifyToken db header tok decoded hf hv hu] at h
            simpa using h
          | some user =>
            rw [gate_run_pass verifyToken db header tok decoded user hf hv hu] at h
            simpa using h
    rw [htok]
    exact hf
  · have hno : ∀ header tok, authHeader = some header → ¬ BearerForm header tok :=
      fun header tok hh hf => hform ⟨header, tok, hh, hf⟩
    rcases gate_run_of_no_form verifyToken db authHeader hno with hrun | hrun
    · rw [hrun] at h; simp at h
    · rw [hrun] at h; simp at h

theorem verify_first_of_form (verifyToken : String → Except JsError Decoded) (db : UserDb)
    (header token : String) (h : BearerForm header token) :
    (authMiddleware verifyToken db (some header)).head? = some (.verifyToken token) := by
  rw [gate_run_of_form verifyToken db header token h]
  cases verifyToken token with
  | error e => rfl
  | ok decoded =>
    cases hu : User.findById db decoded.id with
    | error e => simp only [hu]; rfl
    | ok found => cases found <;> (simp only [hu]; rfl)

/-! ## Lemmas on the answers of the create handler and on another owner's task -/

/-- What the create handler did when its response carries a task. -/
theorem createTask_task (env : Env) (caller : User) (body : JsObject) (tasks : List Task) (t : Task)
    (h : (createTask env caller body tasks).1.payload = .task t) :
    createTask env caller body tasks
        = (⟨201, true, some "Task created successfully", .task t⟩, tasks ++ [t])
      ∧ t.user = caller._id
      ∧ validateCreate env (sanitizeTaskBody body) = []
      ∧ t.title = jsTrim ((body.get "title").getD "")
      ∧ t.description = jsTrim ((body.get "description").getD "")
      ∧ t.status = (body.get "status").getD "pending"
      ∧ t.priority = (body.get "priority").getD "medium"
      ∧ t.dueDate = submittedDate env (body.get "dueDate") := by
  have g (k : String) (hk : ¬ (k = "title" ∨ k = "description")) :
      (sanitizeTaskBody body).get k = body.get k := by
    rw [get_sanitizeTaskBody, if_neg hk]
  by_cases hvalid : validateCreate env (sanitizeTaskBody body) = []
  · unfold createTask at h ⊢
    simp only [hvalid, ne_eq, not_true_eq_false, ↓reduceIte] at h ⊢
    split at h
    · rename_i task tasks1 hc
      simp only [Payload.task.injEq] at h
      subst h
      obtain ⟨hu, hts⟩ := Task.create_result env _ tasks task tasks1 hc
      obtain ⟨f1, f2, f3, f4, f5⟩ := Task.create_fields env _ tasks task tasks1 hc
      subst hts
      refine ⟨rfl, hu, trivial, ?_, ?_, ?_, ?_, ?_⟩
      · rw [f1]
        simp only [get_sanitizeTaskBody, true_or, ↓reduceIte]
        exact jsTrim_getD_map _
      · rw [f2]
        simp only [get_sanitizeTaskBody, or_true, ↓reduceIte]
        exact jsTrim_getD_map _
      · rw [f3, g "status" (by decide)]
      · rw [f4, g "priority" (by decide)]
      · simp only [g "dueDate" (by decide)] at f5
        exact castDate_dueDateOrNull_eq env _ _ f5
    · simp at h
  · unfold createTask at h
    simp [hvalid] at h

/-- A body that passes the chains of `router.post('/')` is answered with 201 or with 500, and with 500
the collection is as it was. -/
theorem createTask_valid_cases (env : Env) (caller : User) (body : JsObject) (tasks : List Task)
    (hvalid : validateCreate env (sanitizeTaskBody body) = []) :
    (∃ t, createTask env caller body tasks
        = (⟨201, true, some "Task created successfully", .task t⟩, tasks ++ [t]))
      ∨ createTask env caller body tasks
        = (⟨500, false, some "Server error while creating task. Please try again.", .none⟩, tasks) := by
  unfold createTask
  simp only [hvalid, ne_eq, not_true_eq_false, ↓reduceIte]
  split
  · rename_i task tasks1 hc
    obtain ⟨_, hts⟩ := Task.create_result env _ tasks task tasks1 hc
    subst hts
    exact Or.inl ⟨task, rfl⟩
  · exact Or.inr rfl

/-- Another owner's task, addressed by its id: the read and the delete are answered 404, and so is an
update whose body passes the request validators, names a field, is within the lengths of the schema
and holds a date `new Date` can read; the collection is left as it was. -/
theorem other_owner_not_found_of_lengths (env : Env) (a b : User) (t : Task) (tasks : List Task)
    (id : String) (body : JsObject)
    (hab : a._id ≠ b._id) (hown : t.user = a._id) (hmem : t ∈ tasks) (huniq : UniqueIds tasks)
    (hid : isObjectIdHex id = true) (hcast : t._id = castObjectId id) :
    getTaskById env b id tasks = (⟨404, false, some "Task not found", .none⟩, tasks)
      ∧ deleteTask env b id tasks
          = (⟨404, false, some "Task not found or unauthorized", .none⟩, tasks)
      ∧ (validateUpdate env id (sanitizeTaskBody body) = [] →
          (updateFields env (sanitizeTaskBody body)).isEmpty = false →
          SchemaLengths body → DueDateParses env body →
          updateTask env b id body tasks
            = (⟨404, false, some "Task not found or unauthorized", .none⟩, tasks)) := by
  have hnone : tasks.find? (ownedFilter b id).base = none :=
    find_owned_none_of_other b id t tasks hmem huniq hcast (by rw [hown]; exact hab)
  have hm := isObjectIdHex_isMongoId id hid
  refine ⟨?_, ?_, ?_⟩
  · rw [getTaskById_no_match env b id tasks hnone]
    simp [getTaskById, checkId_nil id hm, Task.findOne, ownedFilter_compile env b id hid, Except.map]
  · rw [deleteTask_no_match env b id tasks hnone]
    simp [deleteTask, checkId_nil id hm, Task.findOneAndDelete, ownedFilter_compile env b id hid, bind,
      Except.bind, pure, Except.pure]
  · intro hvalid hfields hlens hdate
    rw [updateTask_no_match env b id body tasks hnone]
    simp [updateTask, hvalid, hfields, findOneAndUpdate_valid_nil env b id body hvalid hlens hdate hid]

/-- A create whose body omits dueDate and is within the lengths of the schema is accepted exactly under
the field rules of the request validators, and is otherwise answered 400. -/
theorem create_accepts_iff_of_lengths (env : Env) (caller : User) (body : JsObject) (tasks : List Task)
    (hdue : body.get "dueDate" = none) (hlens : SchemaLengths body) :
    ((createTask env caller body tasks).1.status = 201 ↔ CreateAcceptable body)
      ∧ (CreateAcceptable body → ∃ t, createTask env caller body tasks
          = (⟨201, true, some "Task created successfully", .task t⟩, tasks ++ [t]))
      ∧ (¬ CreateAcceptable body → (createTask env caller body tasks).1.status = 400
          ∧ (createTask env caller body tasks).2 = tasks) := by
  have hacc : CreateAcceptable body → ∃ t, createTask env caller body tasks
      = (⟨201, true, some "Task created successfully", .task t⟩, tasks ++ [t]) := by
    intro h
    obtain ⟨t, ht, _⟩ := createTask_valid env caller body tasks
      ((validateCreate_iff env body hdue).mpr h) hlens (dueDateParses_of_none env body hdue)
    exact ⟨t, ht⟩
  have hrej : ¬ CreateAcceptable body → (createTask env caller body tasks).1.status = 400
      ∧ (createTask env caller body tasks).2 = tasks := by
    intro h
    have hv : validateCreate env (sanitizeTaskBody body) ≠ [] :=
      fun hv => h ((validateCreate_iff env body hdue).mp hv)
    unfold createTask
    simp only [hv, ne_eq, not_false_eq_true, ↓reduceIte, and_self]
  refine ⟨⟨?_, ?_⟩, hacc, hrej⟩
  · intro h
    by_contra hn
    rw [(hrej hn).1] at h
    cases h
  · intro h
    obtain ⟨t, ht⟩ := hacc h
    rw [ht]

/-! ## The claims -/

/-- C1, the code at an update the claim covers: Bob updates Ann's task with a title of fifty-one
characters beyond U+FFFF. The body passes the request validators (the title has 51 characters as
they count) and names a field, and the handler answers 500 where the claim has 404, the collection
left as it was; Bob's read and delete of the same task are answered 404. -/
theorem other_owner_update_not_404 :
    ann._id ≠ bob._id ∧ milk.user = ann._id ∧ milk._id = castObjectId "0123456789abcdef01234567"
      ∧ validateUpdate sampleEnv "0123456789abcdef01234567" (sanitizeTaskBody [("title", grins)]) = []
      ∧ (updateFields sampleEnv (sanitizeTaskBody [("title", grins)])).isEmpty = false
      ∧ validatorLength (jsTrim grins) = 51 ∧ utf16Length (jsTrim grins) = 102
      ∧ updateTask sampleEnv bob "0123456789abcdef01234567" [("title", grins)] [milk]
          = (⟨500, false, some "Server error while updating task. Please try again.", .none⟩, [milk])
      ∧ getTaskById sampleEnv bob "0123456789abcdef01234567" [milk]
          = (⟨404, false, some "Task not found", .none⟩, [milk])
      ∧ deleteTask sampleEnv bob "0123456789abcdef01234567" [milk]
          = (⟨404, false, some "Task not found or unauthorized", .none⟩, [milk]) := by
  decide

/-- C2: to a caller, a task that exists under another owner looks like a task that does not exist: for
every body, the update, delete and read of the id of another owner's task are answered exactly as
those of a well-formed id that no task carries. -/
theorem other_owner_like_absent (env : Env) (caller : User) (t : Task) (tasks1 tasks2 : List Task)
    (id1 id2 : String) (body : JsObject)
    (hmem : t ∈ tasks1) (huniq : UniqueIds tasks1) (hid1 : isObjectIdHex id1 = true)
    (hcast : t._id = castObjectId id1) (hown : t.user ≠ caller._id)
    (hid2 : isObjectIdHex id2 = true) (habsent : ∀ x ∈ tasks2, x._id ≠ castObjectId id2) :
    (updateTask env caller id1 body tasks1).1 = (updateTask env caller id2 body tasks2).1
      ∧ (deleteTask env caller id1 tasks1).1 = (deleteTask env caller id2 tasks2).1
      ∧ (getTaskById env caller id1 tasks1).1 = (getTaskById env caller id2 tasks2).1 := by
  have h1 := find_owned_none_of_other caller id1 t tasks1 hmem huniq hcast hown
  have h2 := find_owned_none_of_absent caller id2 tasks2 habsent
  rw [updateTask_no_match env caller id1 body tasks1 h1, updateTask_no_match env caller id2 body tasks2 h2,
    deleteTask_no_match env caller id1 tasks1 h1, deleteTask_no_match env caller id2 tasks2 h2,
    getTaskById_no_match env caller id1 tasks1 h1, getTaskById_no_match env caller id2 tasks2 h2]
  exact by_id_nil_id env caller id1 id2 body hid1 hid2

/-- C2 at a concrete input: Bob updates, deletes and reads Ann's task and an id nobody has. -/
theorem other_owner_like_absent_witness :
    (updateTask sampleEnv bob "0123456789abcdef01234567" [("title", "Mine now")] [milk]).1
        = (updateTask sampleEnv bob "ffffffffffffffffffffffff" [("title", "Mine now")] [milk]).1
      ∧ (deleteTask sampleEnv bob "0123456789abcdef01234567" [milk]).1
        = (deleteTask sampleEnv bob "ffffffffffffffffffffffff" [milk]).1
      ∧ (getTaskById sampleEnv bob "0123456789abcdef01234567" [milk]).1
        = (getTaskById sampleEnv bob "ffffffffffffffffffffffff" [milk]).1 :=
  other_owner_like_absent sampleEnv bob milk [milk] [milk] "0123456789abcdef01234567"
    "ffffffffffffffffffffffff" [("title", "Mine now")] (List.mem_singleton.mpr rfl)
    (uniqueIds_singleton milk) (by decide) (by decide) (by decide) (by decide) (by decide)

/-- C3: whatever the query parameters, the filter of the list handler fixes the owner to the caller, and
every task of the returned list is a stored task owned by the caller. -/
theorem list_restricted_to_caller (env : Env) (caller : User) (query : JsObject) (tasks : List Task) :
    (listFilter caller query).user = caller._id
      ∧ ∀ t ∈ (getTasks env caller query tasks).1.taskList, t.user = caller._id ∧ t ∈ tasks := by
  refine ⟨rfl, ?_⟩
  intro t ht
  unfold getTasks at ht
  cases hf : Task.find env (listFilter caller query) tasks with
  | error e => simp [hf, Response.taskList] at ht
  | ok found =>
    simp only [hf, Response.taskList] at ht
    obtain ⟨hmem, hbase⟩ := find_mem env _ tasks found hf t ht
    exact ⟨base_user _ t hbase, hmem⟩

/-- C3 at a concrete input: Ann lists with a search. -/
theorem list_restricted_to_caller_witness :
    (listFilter ann [("search", "Buy milk")]).user = ann._id
      ∧ ∀ t ∈ (getTasks sampleEnv ann [("search", "Buy milk")] [milk]).1.taskList,
          t.user = ann._id ∧ t ∈ [milk] :=
  list_restricted_to_caller sampleEnv ann [("search", "Buy milk")] [milk]

/-- C4: the owner of a created task is the caller. Whatever the body holds, a `user` key included, a
task the create handler returns is owned by the caller and is the one document appended to the
collection. A body that passes validation is answered either with 201 and such a task or with 500
and the collection as it was; it is answered with 201 when its title and description are within
the lengths of the schema and its date, if any, is one `new Date` reads. -/
theorem created_task_owned_by_caller (env : Env) (caller : User) (body : JsObject) (tasks : List Task) :
    (∀ t, (createTask env caller body tasks).1.payload = .task t →
        t.user = caller._id ∧ (createTask env caller body tasks).2 = tasks ++ [t])
      ∧ (validateCreate env (sanitizeTaskBody body) = [] →
          (∃ t, createTask env caller body tasks
              = (⟨201, true, some "Task created successfully", .task t⟩, tasks ++ [t])
            ∧ t.user = caller._id)
          ∨ createTask env caller body tasks
              = (⟨500, false, some "Server error while creating task. Please try again.", .none⟩, tasks))
      ∧ (validateCreate env (sanitizeTaskBody body) = [] → SchemaLengths body →
          DueDateParses env body →
          ∃ t, createTask env caller body tasks
              = (⟨201, true, some "Task created successfully", .task t⟩, tasks ++ [t])
            ∧ t.user = caller._id) := by
  have key : ∀ t, createTask env caller body tasks
      = (⟨201, true, some "Task created successfully", .task t⟩, tasks ++ [t]) → t.user = caller._id := by
    intro t ht
    exact (createTask_task env caller body tasks t (by rw [ht])).2.1
  refine ⟨?_, ?_, ?_⟩
  · intro t ht
    obtain ⟨hc, hu, _⟩ := createTask_task env caller body tasks t ht
    exact ⟨hu, by rw [hc]⟩
  · intro hvalid
    rcases createTask_valid_cases env caller body tasks hvalid with ⟨t, ht⟩ | h
    · exact Or.inl ⟨t, ht, key t ht⟩
    · exact Or.inr h
  · intro hvalid hlens hdate
    obtain ⟨t, ht, _⟩ := createTask_valid env caller body tasks hvalid hlens hdate
    exact ⟨t, ht, key t ht⟩

/-- C4 at a concrete input: Ann creates a task whose body names Bob as `user`. -/
theorem created_task_owned_by_caller_witness :
    (∀ t, (createTask sampleEnv ann [("title", "Buy milk"), ("user", "bbbbbbbbbbbbbbbbbbbbbbbb")] []).1.payload
          = .task t →
        t.user = ann._id
          ∧ (createTask sampleEnv ann [("title", "Buy milk"), ("user", "bbbbbbbbbbbbbbbbbbbbbbbb")] []).2
              = [] ++ [t])
      ∧ ∃ t, createTask sampleEnv ann [("title", "Buy milk"), ("user", "bbbbbbbbbbbbbbbbbbbbbbbb")] []
            = (⟨201, true, some "Task created successfully", .task t⟩, [] ++ [t])
          ∧ t.user = ann._id :=
  ⟨(created_task_owned_by_caller sampleEnv ann [("title", "Buy milk"), ("user", "bbbbbbbbbbbbbbbbbbbbbbbb")] []).1,
    (created_task_owned_by_caller sampleEnv ann [("title", "Buy milk"), ("user", "bbbbbbbbbbbbbbbbbbbbbbbb")] []).2.2
      (by decide) ⟨by intro raw h; cases h; decide, by intro raw h; cases h⟩
      (by intro d hd; simp [JsObject.get, List.lookup] at hd)⟩

/-- C5: a request whose Authorization header is absent, does not begin with `Bearer `, or has an empty
token after the scheme is answered by the gate with one response of status 401, and the run holds no
call of the verifier, no query of the identity collection and no call of `next`. -/
theorem gate_rejects_missing_token (verifyToken : String → Except JsError Decoded) (db : UserDb)
    (authHeader : Option String)
    (h : authHeader = none
      ∨ (∃ header, authHeader = some header ∧ startsWithChars header.data "Bearer ".data = false)
      ∨ (∃ header rest, authHeader = some header ∧ header.data = "Bearer ".data ++ rest
          ∧ (rest = [] ∨ rest.head? = some ' '))) :
    (∃ r, authMiddleware verifyToken db authHeader = [.respond r] ∧ r.status = 401 ∧ r.success = false)
      ∧ (∀ token, Effect.verifyToken token ∉ authMiddleware verifyToken db authHeader)
      ∧ (∀ id, Effect.findById id ∉ authMiddleware verifyToken db authHeader)
      ∧ nextCalls (authMiddleware verifyToken db authHeader) = 0 := by
  have hno : ∀ header token, authHeader = some header → ¬ BearerForm header token := by
    intro header token hh hform
    obtain ⟨_, hstart, htok⟩ := bearerToken_of_form header token hform
    rcases h with h | ⟨header2, h, hbad⟩ | ⟨header2, rest, h, hdata, hrest⟩
    · rw [h] at hh; cases hh
    · rw [h] at hh
      cases hh
      rw [hstart] at hbad
      cases hbad
    · rw [h] at hh
      cases hh
      rw [bearerToken_empty header rest hdata hrest] at htok
      exact hform.1 (Option.some.inj htok).symm
  rcases gate_run_of_no_form verifyToken db authHeader hno with hrun | hrun
  · rw [hrun]
    exact ⟨⟨noTokenOrFormat, rfl, rfl, rfl⟩, by simp, by simp, by simp [nextCalls]⟩
  · rw [hrun]
    exact ⟨⟨noToken, rfl, rfl, rfl⟩, by simp, by simp, by simp [nextCalls]⟩

/-- C5 at a concrete input: a second space after the scheme leaves the token empty. -/
theorem gate_rejects_missing_token_witness :
    (∃ r, authMiddleware sampleVerify sampleDb (some "Bearer  good") = [.respond r] ∧ r.status = 401
        ∧ r.success = false)
      ∧ (∀ token, Effect.verifyToken token ∉ authMiddleware sampleVerify sampleDb (some "Bearer  good"))
      ∧ (∀ id, Effect.findById id ∉ authMiddleware sampleVerify sampleDb (some "Bearer  good"))
      ∧ nextCalls (authMiddleware sampleVerify sampleDb (some "Bearer  good")) = 0 :=
  gate_rejects_missing_token sampleVerify sampleDb (some "Bearer  good")
    (Or.inr (Or.inr ⟨"Bearer  good", " good".data, rfl, by decide, Or.inr (by decide)⟩))

/-- C6: every run of the gate either calls `next` once and sends nothing, or sends one rejection and
does not call `next`; and it calls `next` exactly when the header has the Bearer form with a
non-empty token, the verifier accepts that token, and the identity collection yields an identity
for the verified id. -/
theorem gate_next_or_reject (verifyToken : String → Except JsError Decoded) (db : UserDb)
    (authHeader : Option String) :
    ((nextCalls (authMiddleware verifyToken db authHeader) = 1
          ∧ responses (authMiddleware verifyToken db authHeader) = [])
        ∨ (nextCalls (authMiddleware verifyToken db authHeader) = 0
          ∧ ∃ r, responses (authMiddleware verifyToken db authHeader) = [r] ∧ r.success = false))
      ∧ (nextCalls (authMiddleware verifyToken db authHeader) = 1 ↔
          ∃ header token decoded user, authHeader = some header ∧ BearerForm header token
            ∧ verifyToken token = .ok decoded ∧ User.findById db decoded.id = .ok (some user)) := by
  by_cases hform : ∃ header token, authHeader = some header ∧ BearerForm header token
  · obtain ⟨header, token, rfl, hf⟩ := hform
    cases hv : verifyToken token with
    | error e =>
      rw [gate_run_verify_error verifyToken db header token e hf hv]
      obtain ⟨hn, r, hr, hs⟩ := gateCatch_counts e
      have hn2 : nextCalls (Effect.verifyToken token :: gateCatch e) = 0 := by
        simpa [nextCalls] using hn
      have hr2 : responses (Effect.verifyToken token :: gateCatch e) = [r] := by
        simpa [responses, Effect.response] using hr
      refine ⟨Or.inr ⟨hn2, r, hr2, hs⟩, ?_⟩
      rw [hn2]
      constructor
      · intro h; cases h
      · rintro ⟨header2, token2, decoded, user, hh, hf2, hv2, _⟩
        cases hh
        rw [form_unique _ _ _ hf2 hf, hv] at hv2
        cases hv2
    | ok decoded =>
      cases hu : User.findById db decoded.id with
      | error e =>
        rw [gate_run_store_error verifyToken db header token decoded e hf hv hu]
        obtain ⟨hn, r, hr, hs⟩ := gateCatch_counts e
        have hn2 : nextCalls (Effect.verifyToken token :: Effect.findById decoded.id :: gateCatch e) = 0 := by
          simpa [nextCalls] using hn
        have hr2 : responses (Effect.verifyToken token :: Effect.findById decoded.id :: gateCatch e)
            = [r] := by
          simpa [responses, Effect.response] using hr
        refine ⟨Or.inr ⟨hn2, r, hr2, hs⟩, ?_⟩
        rw [hn2]
        constructor
        · intro h; cases h
        · rintro ⟨header2, token2, decoded2, user, hh, hf2, hv2, hu2⟩
          cases hh
          rw [form_unique _ _ _ hf2 hf, hv] at hv2
          cases hv2
          rw [hu] at hu2
          cases hu2
      | ok found =>
        cases found with
        | none =>
          rw [gate_run_unknown verifyToken db header token decoded hf hv hu]
          refine ⟨Or.inr ⟨by simp [nextCalls], userNotFound, by simp [responses, Effect.response], rfl⟩, ?_⟩
          constructor
          · intro h; simp [nextCalls] at h
          · rintro ⟨header2, token2, decoded2, user, hh, hf2, hv2, hu2⟩
            cases hh
            rw [form_unique _ _ _ hf2 hf, hv] at hv2
            cases hv2
            rw [hu] at hu2
            cases hu2
        | some user =>
          rw [gate_run_pass verifyToken db header token decoded user hf hv hu]
          refine ⟨Or.inl ⟨by simp [nextCalls], by simp [responses, Effect.response]⟩, ?_⟩
          constructor
          · intro _
            exact ⟨header, token, decoded, user, rfl, hf, hv, hu⟩
          · intro _
            simp [nextCalls]
  · have hno : ∀ header token, authHeader = some header → ¬ BearerForm header token :=
      fun header token hh hf => hform ⟨header, token, hh, hf⟩
    have hiff : ¬ ∃ header token decoded user, authHeader = some header ∧ BearerForm header token
        ∧ verifyToken token = Except.ok decoded ∧ User.findById db decoded.id = .ok (some user) := by
      rintro ⟨header, token, _, _, hh, hf, _⟩
      exact hno header token hh hf
    rcases gate_run_of_no_form verifyToken db authHeader hno with hrun | hrun
    · rw [hrun]
      refine ⟨Or.inr ⟨by simp [nextCalls], noTokenOrFormat, by simp [responses, Effect.response], rfl⟩, ?_⟩
      constructor
      · intro h; simp [nextCalls] at h
      · intro h; exact absurd h hiff
    · rw [hrun]
      refine ⟨Or.inr ⟨by simp [nextCalls], noToken, by simp [responses, Effect.response], rfl⟩, ?_⟩
      constructor
      · intro h; simp [nextCalls] at h
      · intro h; exact absurd h hiff

/-- C7: when the gate lets a request through, the identity it attaches is the record the identity
collection holds now for the id the verifier returned, with the password excluded; and the gate
keeps nothing between calls: after the stored profile is changed, a call with the same header
attaches the changed profile. -/
theorem gate_attaches_current_record (verifyToken : String → Except JsError Decoded) (db : UserDb)
    (authHeader : Option String) (user : User)
    (h : attachedUser (authMiddleware verifyToken db authHeader) = some user) :
    (∃ token decoded stored, Effect.verifyToken token ∈ authMiddleware verifyToken db authHeader
        ∧ verifyToken token = .ok decoded
        ∧ db.users.find? (fun u => decide (u._id = castObjectId decoded.id)) = some stored
        ∧ user = stored.withoutPassword)
      ∧ user.password = none
      ∧ ∀ now f, ∃ stored, stored ∈ db.users ∧ user = stored.withoutPassword
          ∧ attachedUser (authMiddleware verifyToken (db.updateProfile user._id now f) authHeader)
              = some (User.applyUpdate now f stored).withoutPassword := by
  obtain ⟨header, token, decoded, stored, rfl, hf, hv, hu, hs, hw⟩ :=
    attached_is_stored verifyToken db authHeader user h
  refine ⟨⟨token, decoded, stored, ?_, hv, hs, hw⟩, by rw [hw]; rfl, ?_⟩
  · rw [gate_run_pass verifyToken db header token decoded user hf hv hu]
    simp
  · intro now f
    refine ⟨stored, List.mem_of_find?_eq_some hs, hw, ?_⟩
    obtain ⟨hfault, hid, _⟩ := (findById_some db decoded.id user).mp hu
    have hidEq : user._id = castObjectId decoded.id := by
      have := List.find?_some hs
      simp only [decide_eq_true_eq] at this
      rw [hw]
      exact this
    have hfind : (db.updateProfile user._id now f).users.find?
        (fun u => decide (u._id = castObjectId decoded.id)) = some (User.applyUpdate now f stored) := by
      unfold UserDb.updateProfile
      simp only [hidEq]
      rw [find_updateFirstUser (fun u => decide (u._id = castObjectId decoded.id)) (User.applyUpdate now f)
        (fun u => rfl), hs]
      rfl
    have hu2 : User.findById (db.updateProfile user._id now f) decoded.id
        = .ok (some (User.applyUpdate now f stored).withoutPassword) :=
      (findById_some _ decoded.id _).mpr ⟨hfault, hid, _, hfind, rfl⟩
    rw [gate_run_pass verifyToken _ header token decoded _ hf hv hu2]
    simp [attachedUser, Effect.assigned]

/-- C7 at a concrete input: Ann's token, before and after Ann changes her name. -/
theorem gate_attaches_current_record_witness :
    (∃ token decoded stored,
        Effect.verifyToken token ∈ authMiddleware sampleVerify sampleDb (some "Bearer good")
        ∧ sampleVerify token = .ok decoded
        ∧ sampleDb.users.find? (fun u => decide (u._id = castObjectId decoded.id)) = some stored
        ∧ ann = stored.withoutPassword)
      ∧ ann.password = none
      ∧ ∀ now f, ∃ stored, stored ∈ sampleDb.users ∧ ann = stored.withoutPassword
          ∧ attachedUser (authMiddleware sampleVerify (sampleDb.updateProfile ann._id now f)
              (some "Bearer good")) = some (User.applyUpdate now f stored).withoutPassword :=
  gate_attaches_current_record sampleVerify sampleDb (some "Bearer good") ann (by decide)

/-- C8: the four failure classes of the gate are answered apart: two requests that fail in different
classes (no usable header, a token the verifier rejects, a verified id without an identity, an error
of the identity collection) each get one response, and the two differ in status or message. -/
theorem failure_classes_answered_apart (verifyToken : String → Except JsError Decoded)
    (db1 db2 : UserDb) (req1 req2 : Option String) (c1 c2 : GateFailure)
    (hv : VerifierMessage verifyToken) (hs1 : StoreMessage db1) (hs2 : StoreMessage db2)
    (h1 : FailsAs verifyToken db1 req1 c1) (h2 : FailsAs verifyToken db2 req2 c2) (hne : c1 ≠ c2) :
    ∃ r1 r2, responses (authMiddleware verifyToken db1 req1) = [r1]
      ∧ responses (authMiddleware verifyToken db2 req2) = [r2]
      ∧ (r1.status, r1.message) ≠ (r2.status, r2.message) := by
  obtain ⟨r1, hr1, hm1⟩ := class_response verifyToken db1 req1 c1 (fun _ => hv) (fun _ => hs1) h1
  obtain ⟨r2, hr2, hm2⟩ := class_response verifyToken db2 req2 c2 (fun _ => hv) (fun _ => hs2) h2
  exact ⟨r1, r2, hr1, hr2, classResponses_apart c1 c2 hne r1 r2 hm1 hm2⟩

/-- C8 at a concrete input: a rejected token against a store that is down. -/
theorem failure_classes_answered_apart_witness :
    ∃ r1 r2, responses (authMiddleware sampleVerify sampleDb (some "Bearer bad")) = [r1]
      ∧ responses (authMiddleware sampleVerify downDb (some "Bearer good")) = [r2]
      ∧ (r1.status, r1.message) ≠ (r2.status, r2.message) :=
  failure_classes_answered_apart sampleVerify sampleDb downDb (some "Bearer bad") (some "Bearer good")
    .invalidToken .unavailable sampleVerify_message
    (by intro e h; cases h) (by intro e h; cases h; decide)
    ⟨"Bearer bad", "bad", _, rfl, bearer_bad, rfl⟩
    ⟨"Bearer good", "good", _, _, rfl, bearer_good, rfl, rfl⟩ (by decide)

/-- C9, as stated, fails: the responses for a missing token, a rejected token and an unknown identity
are three different responses. -/
theorem uniform_unauthorized_counterexample :
    responses (authMiddleware ghostVerify sampleDb none)
        ≠ responses (authMiddleware ghostVerify sampleDb (some "Bearer bad"))
      ∧ responses (authMiddleware ghostVerify sampleDb (some "Bearer bad"))
        ≠ responses (authMiddleware ghostVerify sampleDb (some "Bearer ghost"))
      ∧ responses (authMiddleware ghostVerify sampleDb none)
        ≠ responses (authMiddleware ghostVerify sampleDb (some "Bearer ghost")) := by
  decide

/-- C9, amended: the rejections for a missing token, a rejected token and an unknown identity are one
response each, all with status 401, success false and no data; the message is the only part that
differs, and it names the case. -/
theorem unauthorized_status_uniform (verifyToken : String → Except JsError Decoded) (db : UserDb)
    (authHeader : Option String) (c : GateFailure) (hv : VerifierMessage verifyToken)
    (hc : c ≠ .unavailable) (h : FailsAs verifyToken db authHeader c) :
    ∃ r, responses (authMiddleware verifyToken db authHeader) = [r]
      ∧ r.status = 401 ∧ r.success = false ∧ r.payload = .none
      ∧ (r.message = some "Access denied. No token provided or invalid format."
          ∨ r.message = some "Access denied. No token provided." ↔ c = .missing)
      ∧ (r.message = some "Invalid or expired token. Please login again." ↔ c = .invalidToken)
      ∧ (r.message = some "User not found. Token is invalid." ↔ c = .unknownIdentity) := by
  obtain ⟨r, hr, hm⟩ := class_response verifyToken db authHeader c (fun _ => hv)
    (fun hu => absurd hu hc) h
  refine ⟨r, hr, ?_⟩
  cases c with
  | missing =>
    simp only [classResponses, List.mem_cons, List.mem_singleton, List.not_mem_nil, or_false] at hm
    rcases hm with rfl | rfl <;> decide
  | invalidToken =>
    simp only [classResponses, List.mem_singleton] at hm
    subst hm
    decide
  | unknownIdentity =>
    simp only [classResponses, List.mem_singleton] at hm
    subst hm
    decide
  | unavailable => exact absurd rfl hc

/-- C9 amended, at a concrete input: a token for an identity that is not stored. -/
theorem unauthorized_status_uniform_witness :
    ∃ r, responses (authMiddleware ghostVerify sampleDb (some "Bearer ghost")) = [r]
      ∧ r.status = 401 ∧ r.success = false ∧ r.payload = .none
      ∧ (r.message = some "Access denied. No token provided or invalid format."
          ∨ r.message = some "Access denied. No token provided." ↔ GateFailure.unknownIdentity = .missing)
      ∧ (r.message = some "Invalid or expired token. Please login again."
          ↔ GateFailure.unknownIdentity = .invalidToken)
      ∧ (r.message = some "User not found. Token is invalid."
          ↔ GateFailure.unknownIdentity = .unknownIdentity) :=
  unauthorized_status_uniform ghostVerify sampleDb (some "Bearer ghost") .unknownIdentity
    ghostVerify_message (by decide) ⟨"Bearer ghost", "ghost", _, rfl, bearer_ghost, rfl, rfl⟩

/-- C10, the code where the claim has two rejections: whatever errors the verifier throws for two
tokens, an expired one and a malformed or badly signed one, the gate answers each itself, without
a call of `next`, with one of the two responses of its catch block, which reads the message of
the error alone. The two answers are the same unless exactly one of the errors carries the message
`Invalid or expired token`, and then the other answer is the 500 `Authentication failed`; two
rejections with status 401 are never apart. The global error handler of `index.js` does word a
`TokenExpiredError` and a `JsonWebTokenError` apart, as `Token expired` and `Invalid token`. -/
theorem gate_has_one_token_rejection (verifyToken : String → Except JsError Decoded) (db1 db2 : UserDb)
    (header1 header2 token1 token2 : String) (e1 e2 : JsError)
    (hf1 : BearerForm header1 token1) (hf2 : BearerForm header2 token2)
    (hv1 : verifyToken token1 = .error e1) (hv2 : verifyToken token2 = .error e2) :
    (∃ r1 r2, responses (authMiddleware verifyToken db1 (some header1)) = [r1]
        ∧ responses (authMiddleware verifyToken db2 (some header2)) = [r2]
        ∧ (r1 = invalidOrExpired ∨ r1 = authenticationFailed)
        ∧ (r2 = invalidOrExpired ∨ r2 = authenticationFailed)
        ∧ ((e1.message = "Invalid or expired token" ↔ e2.message = "Invalid or expired token") → r1 = r2)
        ∧ (r1.status = 401 → r2.status = 401 → r1 = r2))
      ∧ Effect.next ∉ authMiddleware verifyToken db1 (some header1)
      ∧ Effect.next ∉ authMiddleware verifyToken db2 (some header2)
      ∧ ∀ x y : ServerError, x.name = "TokenExpiredError" → y.name = "JsonWebTokenError" →
          x.code ≠ some 11000 → y.code ≠ some 11000 →
          globalErrorHandler x = .ok ⟨401, false, some "Token expired", .none⟩
            ∧ globalErrorHandler y = .ok ⟨401, false, some "Invalid token", .none⟩ := by
  have r1 := responses_catch [.verifyToken token1] e1 (by simp [Effect.response])
  have r2 := responses_catch [.verifyToken token2] e2 (by simp [Effect.response])
  simp only [List.singleton_append] at r1 r2
  rw [gate_run_verify_error verifyToken db1 header1 token1 e1 hf1 hv1,
    gate_run_verify_error verifyToken db2 header2 token2 e2 hf2 hv2, r1, r2]
  refine ⟨⟨_, _, rfl, rfl, ?_, ?_, ?_, ?_⟩, by simp [gateCatch], by simp [gateCatch], ?_⟩
  · by_cases h : e1.message = "Invalid or expired token"
    · exact Or.inl (if_pos h)
    · exact Or.inr (if_neg h)
  · by_cases h : e2.message = "Invalid or expired token"
    · exact Or.inl (if_pos h)
    · exact Or.inr (if_neg h)
  · intro hiff
    by_cases h : e1.message = "Invalid or expired token"
    · rw [if_pos h, if_pos (hiff.mp h)]
    · rw [if_neg h, if_neg (fun h2 => h (hiff.mpr h2))]
  · intro h1 h2
    by_cases h : e1.message = "Invalid or expired token"
    · by_cases h' : e2.message = "Invalid or expired token"
      · rw [if_pos h, if_pos h']
      · rw [if_neg h'] at h2
        exact absurd h2 (by decide)
    · rw [if_neg h] at h1
      exact absurd h1 (by decide)
  · intro x y hx hy hcx hcy
    constructor
    · unfold globalErrorHandler
      rw [if_neg (by rw [hx]; decide), if_neg hcx, if_neg (by rw [hx]; decide), if_pos hx]
    · unfold globalErrorHandler
      rw [if_neg (by rw [hy]; decide), if_neg hcy, if_pos hy]

/-- C10 at a concrete input: two tokens the sample verifier rejects. -/
theorem gate_has_one_token_rejection_witness :
    (∃ r1 r2, responses (authMiddleware sampleVerify sampleDb (some "Bearer old")) = [r1]
        ∧ responses (authMiddleware sampleVerify downDb (some "Bearer torn")) = [r2]
        ∧ (r1 = invalidOrExpired ∨ r1 = authenticationFailed)
        ∧ (r2 = invalidOrExpired ∨ r2 = authenticationFailed)
        ∧ (((JsError.mk "Error" "Invalid or expired token").message = "Invalid or expired token"
            ↔ (JsError.mk "Error" "Invalid or expired token").message = "Invalid or expired token")
          → r1 = r2)
        ∧ (r1.status = 401 → r2.status = 401 → r1 = r2))
      ∧ Effect.next ∉ authMiddleware sampleVerify sampleDb (some "Bearer old")
      ∧ Effect.next ∉ authMiddleware sampleVerify downDb (some "Bearer torn")
      ∧ ∀ x y : ServerError, x.name = "TokenExpiredError" → y.name = "JsonWebTokenError" →
          x.code ≠ some 11000 → y.code ≠ some 11000 →
          globalErrorHandler x = .ok ⟨401, false, some "Token expired", .none⟩
            ∧ globalErrorHandler y = .ok ⟨401, false, some "Invalid token", .none⟩ :=
  gate_has_one_token_rejection sampleVerify sampleDb downDb "Bearer old" "Bearer torn"
    "old" "torn" ⟨"Error", "Invalid or expired token"⟩ ⟨"Error", "Invalid or expired token"⟩
    bearer_old bearer_torn rfl rfl

/-- C11: a successful update answers with the stored task of the caller after the update and puts it in
the place of the old one; its id and owner are those of the old one whatever the body holds, and
each of title, description, status, priority and dueDate that is absent from the body keeps its
value. -/
theorem update_keeps_absent_fields (env : Env) (caller : User) (id : String) (body : JsObject)
    (tasks : List Task)
    (h : (updateTask env caller id body tasks).1.status = 200) :
    ∃ t0 t1, t0 ∈ tasks ∧ t0._id = castObjectId id ∧ t0.user = caller._id
      ∧ updateTask env caller id body tasks
          = (⟨200, true, some "Task updated successfully", .task t1⟩,
              replaceFirst (ownedFilter caller id).base t1 tasks)
      ∧ t1._id = t0._id ∧ t1.user = t0.user
      ∧ (body.get "title" = none → t1.title = t0.title)
      ∧ (body.get "description" = none → t1.description = t0.description)
      ∧ (body.get "status" = none → t1.status = t0.status)
      ∧ (body.get "priority" = none → t1.priority = t0.priority)
      ∧ (body.get "dueDate" = none → t1.dueDate = t0.dueDate) := by
  unfold updateTask at h ⊢
  simp only at h ⊢
  by_cases hv : validateUpdate env id (sanitizeTaskBody body) = []
  · by_cases he : (updateFields env (sanitizeTaskBody body)).isEmpty = true
    · simp [hv, he] at h
    · simp only [hv, he, ne_eq, not_true_eq_false, ↓reduceIte, Bool.false_eq_true] at h ⊢
      cases hr : Task.findOneAndUpdate env (ownedFilter caller id)
          (updateFields env (sanitizeTaskBody body)) tasks with
      | error e => simp [hr] at h
      | ok r =>
        obtain ⟨o, tasks1⟩ := r
        cases o with
        | none => simp [hr] at h
        | some t1 =>
          obtain ⟨t0, d, hf, hd, ht, hts⟩ :=
            findOneAndUpdate_some env caller id _ tasks tasks1 t1 hr
          have hb := (ownedFilter_base caller id t0).mp (List.find?_some hf)
          refine ⟨t0, t1, List.mem_of_find?_eq_some hf, hb.1, hb.2, by simp only [hts], ?_⟩
          subst ht
          refine ⟨rfl, rfl, ?_, ?_, ?_, ?_, ?_⟩
          · intro hn
            simp [Task.applyUpdate, updateFields, get_sanitizeTaskBody_none body _ hn]
          · intro hn
            simp [Task.applyUpdate, updateFields, get_sanitizeTaskBody_none body _ hn]
          · intro hn
            simp [Task.applyUpdate, updateFields, get_sanitizeTaskBody_none body _ hn]
          · intro hn
            simp [Task.applyUpdate, updateFields, get_sanitizeTaskBody_none body _ hn]
          · intro hn
            have : (updateFields env (sanitizeTaskBody body)).dueDate = none := by
              simp [updateFields, get_sanitizeTaskBody_none body _ hn]
            simp [Task.applyUpdate, hd this]
  · simp [hv] at h

/-- C11 at a concrete input: Ann completes her task, with a body that also names Bob as `user`. -/
theorem update_keeps_absent_fields_witness :
    ∃ t0 t1, t0 ∈ [milk] ∧ t0._id = castObjectId "0123456789abcdef01234567" ∧ t0.user = ann._id
      ∧ updateTask sampleEnv ann "0123456789abcdef01234567"
            [("status", "completed"), ("user", "bbbbbbbbbbbbbbbbbbbbbbbb")] [milk]
          = (⟨200, true, some "Task updated successfully", .task t1⟩,
              replaceFirst (ownedFilter ann "0123456789abcdef01234567").base t1 [milk])
      ∧ t1._id = t0._id ∧ t1.user = t0.user
      ∧ (JsObject.get [("status", "completed"), ("user", "bbbbbbbbbbbbbbbbbbbbbbbb")] "title" = none →
          t1.title = t0.title)
      ∧ (JsObject.get [("status", "completed"), ("user", "bbbbbbbbbbbbbbbbbbbbbbbb")] "description" = none →
          t1.description = t0.description)
      ∧ (JsObject.get [("status", "completed"), ("user", "bbbbbbbbbbbbbbbbbbbbbbbb")] "status" = none →
          t1.status = t0.status)
      ∧ (JsObject.get [("status", "completed"), ("user", "bbbbbbbbbbbbbbbbbbbbbbbb")] "priority" = none →
          t1.priority = t0.priority)
      ∧ (JsObject.get [("status", "completed"), ("user", "bbbbbbbbbbbbbbbbbbbbbbbb")] "dueDate" = none →
          t1.dueDate = t0.dueDate) :=
  update_keeps_absent_fields sampleEnv ann "0123456789abcdef01234567"
    [("status", "completed"), ("user", "bbbbbbbbbbbbbbbbbbbbbbbb")] [milk] (by decide)

/-- C12: an update whose body has none of the keys title, description, status, priority and dueDate is
rejected with status 400 and the collection is left as it was, whatever the id addresses; for a
well-formed id the rejection is `No valid fields provided for update`. -/
theorem update_without_fields_rejected (env : Env) (caller : User) (id : String) (body : JsObject)
    (tasks : List Task) (h : ∀ k ∈ taskKeys, body.get k = none) :
    (updateTask env caller id body tasks).1.status = 400
      ∧ (updateTask env caller id body tasks).1.success = false
      ∧ (updateTask env caller id body tasks).2 = tasks
      ∧ (isMongoId id = true → (updateTask env caller id body tasks).1
          = ⟨400, false, some "No valid fields provided for update", .none⟩) := by
  unfold updateTask
  simp only [validateUpdate_no_keys env id body h, updateFields_isEmpty env body h]
  by_cases hid : isMongoId id = true
  · simp [checkId, hid]
  · simp [checkId, hid]

/-- C12 at a concrete input: Bob sends only an unrecognised key for Ann's task. -/
theorem update_without_fields_rejected_witness :
    (updateTask sampleEnv bob "0123456789abcdef01234567" [("owner", "bob")] [milk]).1.status = 400
      ∧ (updateTask sampleEnv bob "0123456789abcdef01234567" [("owner", "bob")] [milk]).1.success = false
      ∧ (updateTask sampleEnv bob "0123456789abcdef01234567" [("owner", "bob")] [milk]).2 = [milk]
      ∧ (isMongoId "0123456789abcdef01234567" = true →
          (updateTask sampleEnv bob "0123456789abcdef01234567" [("owner", "bob")] [milk]).1
            = ⟨400, false, some "No valid fields provided for update", .none⟩) :=
  update_without_fields_rejected sampleEnv bob "0123456789abcdef01234567" [("owner", "bob")] [milk]
    (by decide)

/-- C13, as stated, fails: a title submitted with blanks around it passes validation, and the task
listed after the create carries the trimmed title, not the submitted one. -/
theorem create_then_list_counterexample :
    validateCreate sampleEnv (sanitizeTaskBody
        [("title", "  Buy milk "), ("description", "two litres"), ("status", "pending"),
          ("priority", "low"), ("dueDate", "2030-01-01")]) = []
      ∧ (createTask sampleEnv ann
          [("title", "  Buy milk "), ("description", "two litres"), ("status", "pending"),
            ("priority", "low"), ("dueDate", "2030-01-01")] []).1.status = 201
      ∧ ∀ t ∈ (getTasks sampleEnv ann [] (createTask sampleEnv ann
          [("title", "  Buy milk "), ("description", "two litres"), ("status", "pending"),
            ("priority", "low"), ("dueDate", "2030-01-01")] []).2).1.taskList,
          t.title ≠ "  Buy milk " := by
  decide

/-- C13, amended: a task that the create handler returns is stored, and listing the caller's tasks right
after the create returns it, with the submitted title and description trimmed, the submitted status
and priority or their defaults, and as dueDate the date read from the submitted string, `null` when
it was omitted; a body that passes validation is answered with such a task when its title and
description are within the lengths of the schema and its date, if any, is one `new Date` reads. -/
theorem create_then_list (env : Env) (caller : User) (body : JsObject) (tasks : List Task) :
    (∀ t, (createTask env caller body tasks).1.payload = .task t →
        createTask env caller body tasks
            = (⟨201, true, some "Task created successfully", .task t⟩, tasks ++ [t])
          ∧ t ∈ (getTasks env caller [] (createTask env caller body tasks).2).1.taskList
          ∧ t.title = jsTrim ((body.get "title").getD "")
          ∧ t.description = jsTrim ((body.get "description").getD "")
          ∧ t.status = (body.get "status").getD "pending"
          ∧ t.priority = (body.get "priority").getD "medium"
          ∧ t.dueDate = submittedDate env (body.get "dueDate"))
      ∧ (validateCreate env (sanitizeTaskBody body) = [] → SchemaLengths body →
          DueDateParses env body →
          ∃ t, createTask env caller body tasks
              = (⟨201, true, some "Task created successfully", .task t⟩, tasks ++ [t])) := by
  constructor
  · intro t ht
    obtain ⟨hc, hu, _, f1, f2, f3, f4, f5⟩ := createTask_task env caller body tasks t ht
    refine ⟨hc, ?_, f1, f2, f3, f4, f5⟩
    rw [hc]
    exact mem_getTasks_all env caller _ t (by simp) hu
  · intro hvalid hlens hdate
    obtain ⟨t, ht, _⟩ := createTask_valid env caller body tasks hvalid hlens hdate
    exact ⟨t, ht⟩

/-- C13 amended, at a concrete input: Ann creates a task without a dueDate next to an older one. -/
theorem create_then_list_witness :
    ∃ t, createTask sampleEnv ann
            [("title", "  Buy milk "), ("description", "two litres"), ("status", "pending"),
              ("priority", "low")] [milk]
          = (⟨201, true, some "Task created successfully", .task t⟩, [milk] ++ [t])
      ∧ t ∈ (getTasks sampleEnv ann [] (createTask sampleEnv ann
            [("title", "  Buy milk "), ("description", "two litres"), ("status", "pending"),
              ("priority", "low")] [milk]).2).1.taskList
      ∧ t.title = jsTrim ((JsObject.get [("title", "  Buy milk "), ("description", "two litres"),
            ("status", "pending"), ("priority", "low")] "title").getD "")
      ∧ t.description = jsTrim ((JsObject.get [("title", "  Buy milk "), ("description", "two litres"),
            ("status", "pending"), ("priority", "low")] "description").getD "")
      ∧ t.status = (JsObject.get [("title", "  Buy milk "), ("description", "two litres"),
            ("status", "pending"), ("priority", "low")] "status").getD "pending"
      ∧ t.priority = (JsObject.get [("title", "  Buy milk "), ("description", "two litres"),
            ("status", "pending"), ("priority", "low")] "priority").getD "medium"
      ∧ t.dueDate = submittedDate sampleEnv (JsObject.get [("title", "  Buy milk "),
            ("description", "two litres"), ("status", "pending"), ("priority", "low")] "dueDate") := by
  obtain ⟨t, ht⟩ := (create_then_list sampleEnv ann
    [("title", "  Buy milk "), ("description", "two litres"), ("status", "pending"), ("priority", "low")]
    [milk]).2 (by decide)
    ⟨by intro raw h; cases h; decide, by intro raw h; cases h; decide⟩
    (by intro d hd; simp [JsObject.get, List.lookup] at hd)
  obtain ⟨_, h2, h3⟩ := (create_then_list sampleEnv ann
    [("title", "  Buy milk "), ("description", "two litres"), ("status", "pending"), ("priority", "low")]
    [milk]).1 t (by rw [ht])
  exact ⟨t, ht, h2, h3⟩

/-- C14, the code at a blank dueDate: on create and on update a dueDate submitted as the empty string is
answered with 400 `Due date must be a valid date` and nothing is stored, where the claim has it
accepted and stored as `null`; a dueDate omitted from a create is stored as `null`, as claimed. -/
theorem blank_dueDate_not_accepted :
    createTask sampleEnv ann [("title", "Buy milk"), ("dueDate", "")] []
        = (⟨400, false, some "Validation failed",
            .errors [⟨"body", "dueDate", "Due date must be a valid date", some ""⟩]⟩, [])
      ∧ updateTask sampleEnv ann "0123456789abcdef01234567" [("dueDate", "")] [milk]
        = (⟨400, false, some "Validation failed",
            .errors [⟨"body", "dueDate", "Due date must be a valid date", some ""⟩]⟩, [milk])
      ∧ (createTask sampleEnv ann [("title", "Buy milk")] []).1.status = 201
      ∧ ∀ t ∈ (createTask sampleEnv ann [("title", "Buy milk")] []).2, t.dueDate = none := by
  decide

/-- C15, the code at a search string with a pattern character: the search `a.c` returns the task titled
`abc`, whose lower-cased title and description do not contain `a.c` (the client-side filter leaves
it out), and the search `(` is answered with 500 instead of a list. -/
theorem search_is_a_pattern :
    (getTasks regexEnv ann [("search", "a.c")] [abc]).1
        = ⟨200, true, none, .tasks 1 [abc]⟩
      ∧ searchIncludes "a.c" abc = false
      ∧ (getTasks regexEnv ann [("search", "(")] [abc]).1
        = ⟨500, false, some "Server error while fetching tasks. Please try again.", .none⟩ := by
  decide

/-- C16, the code at a title of fifty-one characters beyond U+FFFF, dueDate omitted: the body meets the
field rules as the request validators count (the title has 51 characters, 102 UTF-16 units), and
the handler answers neither 201 nor 400 but 500, with no task created. -/
theorem create_neither_accepts_nor_rejects :
    JsObject.get [("title", grins)] "dueDate" = none
      ∧ CreateAcceptable [("title", grins)]
      ∧ (jsTrim grins).length = 51 ∧ validatorLength (jsTrim grins) = 51
      ∧ utf16Length (jsTrim grins) = 102
      ∧ validateCreate sampleEnv (sanitizeTaskBody [("title", grins)]) = []
      ∧ createTask sampleEnv ann [("title", grins)] [milk]
          = (⟨500, false, some "Server error while creating task. Please try again.", .none⟩, [milk]) :=
  ⟨by decide,
    ⟨⟨grins, rfl, by decide, by decide⟩, (by intro raw h; cases h), (by intro v h; cases h),
      (by intro v h; cases h)⟩,
    by decide, by decide, by decide, by decide, by decide⟩

/-- C18: a task created from a body with a title and none of description, status, priority and dueDate
is the one document appended to the collection and is returned with status `pending`, priority
`medium`, dueDate `null` and an empty description; and the task is created whenever the title,
trimmed, has at least 3 characters as the request validator counts them and at most 100 UTF-16
units, the measure of the schema. -/
theorem create_defaults (env : Env) (caller : User) (body : JsObject) (tasks : List Task) (raw : String)
    (htitle : body.get "title" = some raw)
    (hdesc : body.get "description" = none) (hstatus : body.get "status" = none)
    (hprio : body.get "priority" = none) (hdue : body.get "dueDate" = none) :
    (∀ t, (createTask env caller body tasks).1.payload = .task t →
        createTask env caller body tasks
            = (⟨201, true, some "Task created successfully", .task t⟩, tasks ++ [t])
          ∧ t.title = jsTrim raw ∧ t.status = "pending" ∧ t.priority = "medium" ∧ t.dueDate = none
          ∧ t.description = "")
      ∧ (3 ≤ validatorLength (jsTrim raw) → utf16Length (jsTrim raw) ≤ 100 →
          ∃ t, createTask env caller body tasks
              = (⟨201, true, some "Task created successfully", .task t⟩, tasks ++ [t])) := by
  constructor
  · intro t ht
    obtain ⟨hc, _, _, f1, f2, f3, f4, f5⟩ := createTask_task env caller body tasks t ht
    refine ⟨hc, ?_, ?_, ?_, ?_, ?_⟩
    · rw [f1, htitle]; rfl
    · rw [f3, hstatus]; rfl
    · rw [f4, hprio]; rfl
    · rw [f5, hdue]; rfl
    · rw [f2, hdesc]; exact jsTrim_empty
  · intro h3 h100
    have hacc : CreateAcceptable body :=
      ⟨⟨raw, htitle, h3, le_trans (validatorLength_le _) h100⟩, by simp [hdesc], by simp [hstatus],
        by simp [hprio]⟩
    have hlens : SchemaLengths body := by
      refine ⟨?_, ?_⟩
      · intro r hr
        rw [htitle] at hr
        cases hr
        exact h100
      · intro r hr
        rw [hdesc] at hr
        cases hr
    obtain ⟨t, ht, _⟩ := createTask_valid env caller body tasks
      ((validateCreate_iff env body hdue).mpr hacc) hlens (dueDateParses_of_none env body hdue)
    exact ⟨t, ht⟩

/-- C18 at a concrete input: Ann creates `Buy milk`. -/
theorem create_defaults_witness :
    ∃ t, createTask sampleEnv ann [("title", "Buy milk")] []
          = (⟨201, true, some "Task created successfully", .task t⟩, [] ++ [t])
      ∧ t.title = jsTrim "Buy milk" ∧ t.status = "pending" ∧ t.priority = "medium" ∧ t.dueDate = none
      ∧ t.description = "" := by
  obtain ⟨t, ht⟩ := (create_defaults sampleEnv ann [("title", "Buy milk")] [] "Buy milk" (by decide)
    (by decide) (by decide) (by decide) (by decide)).2 (by decide) (by decide)
  obtain ⟨_, h⟩ := (create_defaults sampleEnv ann [("title", "Buy milk")] [] "Buy milk" (by decide)
    (by decide) (by decide) (by decide) (by decide)).1 t (by rw [ht])
  exact ⟨t, ht, h⟩

/-- C17: deleting a task of the caller by its id succeeds and returns the task as it was stored; after
it, the caller's list, under any filter, does not hold the task and holds every other task it held
before. -/
theorem delete_own_task (env : Env) (caller : User) (id : String) (t : Task) (tasks : List Task)
    (query : JsObject)
    (hmem : t ∈ tasks) (hids : DistinctIds tasks) (hid : isObjectIdHex id = true)
    (hcast : t._id = castObjectId id) (hown : t.user = caller._id) :
    deleteTask env caller id tasks
        = (⟨200, true, some "Task deleted successfully", .task t⟩, tasks.erase t)
      ∧ t ∉ (getTasks env caller query (deleteTask env caller id tasks).2).1.taskList
      ∧ ∀ x ∈ (getTasks env caller query tasks).1.taskList, x ≠ t →
          x ∈ (getTasks env caller query (deleteTask env caller id tasks).2).1.taskList := by
  have hf := find_owned_some caller id t tasks hmem (uniqueIds_of_distinct tasks hids) hcast hown
  have hdel : deleteTask env caller id tasks
      = (⟨200, true, some "Task deleted successfully", .task t⟩, tasks.erase t) := by
    unfold deleteTask
    simp [checkId_nil id (isObjectIdHex_isMongoId id hid), Task.findOneAndDelete,
      ownedFilter_compile env caller id hid, bind, Except.bind, pure, Except.pure, hf,
      removeFirst_eq_erase _ t tasks hf]
  have hnodup : tasks.Nodup := List.Nodup.of_map _ hids
  refine ⟨hdel, ?_, ?_⟩
  · rw [hdel]
    intro hin
    exact ((List.Nodup.mem_erase_iff hnodup).mp (mem_of_mem_getTasks env caller query _ t hin)).1 rfl
  · rw [hdel]
    intro x hx hne
    cases hc : (listFilter caller query).compile env with
    | error e =>
      have : (getTasks env caller query tasks).1.taskList = [] := by
        simp [getTasks, Task.find, hc, Except.map, Response.taskList]
      rw [this] at hx
      cases hx
    | ok p =>
      rw [mem_getTasks env caller query _ p hc] at hx ⊢
      exact ⟨(List.Nodup.mem_erase_iff hnodup).mpr ⟨hne, hx.1⟩, hx.2⟩

/-- C17 at a concrete input: Ann deletes `Buy milk` and keeps `abc`. -/
theorem delete_own_task_witness :
    deleteTask sampleEnv ann "0123456789abcdef01234567" [abc, milk]
        = (⟨200, true, some "Task deleted successfully", .task milk⟩, [abc, milk].erase milk)
      ∧ milk ∉ (getTasks sampleEnv ann []
          (deleteTask sampleEnv ann "0123456789abcdef01234567" [abc, milk]).2).1.taskList
      ∧ ∀ x ∈ (getTasks sampleEnv ann [] [abc, milk]).1.taskList, x ≠ milk →
          x ∈ (getTasks sampleEnv ann []
            (deleteTask sampleEnv ann "0123456789abcdef01234567" [abc, milk]).2).1.taskList :=
  delete_own_task sampleEnv ann "0123456789abcdef01234567" milk [abc, milk] []
    (by decide) (by unfold DistinctIds; decide) (by decide) (by decide) (by decide)

/-- C19: at every time `now`, the derived attribute `isOverdue` of a task is true exactly when its dueDate
is set and strictly earlier than `now` and its status is not `completed`. -/
theorem isOverdue_iff (now : Int) (t : Task) :
    t.isOverdue now = true ↔ (∃ due, t.dueDate = some due ∧ due < now) ∧ t.status ≠ "completed" := by
  unfold Task.isOverdue
  cases hd : t.dueDate with
  | none => simp
  | some due =>
    by_cases hs : t.status = "completed"
    · simp [hs]
    · simp [hs]

/-- C20: no external representation of an identity carries the password, also when the identity is held
with its hash: `toJSON` yields the object of the identity without the `password` key, and the user
object of the profile read and of the profile update has exactly the keys id, name, email, bio,
avatar, createdAt and updatedAt. -/
theorem password_never_serialized (env : Env) (u : User) (body : JsObject) (db : UserDb) :
    "password" ∉ u.toJSON.map Prod.fst
      ∧ u.toJSON = u.withoutPassword.toObject
      ∧ getProfile u = ⟨200, true, none, .user (profileView u)⟩
      ∧ (profileView u).map Prod.fst = profileKeys
      ∧ ∀ obj, (putProfile env u body db).1.payload = .user obj → obj.map Prod.fst = profileKeys := by
  refine ⟨?_, ?_, rfl, rfl, ?_⟩
  · intro h
    rw [List.mem_map] at h
    obtain ⟨kv, hkv, hk⟩ := h
    unfold User.toJSON at hkv
    rw [List.mem_filter] at hkv
    simp only [ne_eq, decide_not, Bool.not_eq_true', decide_eq_false_iff_not] at hkv
    exact hkv.2 hk
  · unfold User.toJSON User.toObject User.withoutPassword
    cases u.password <;> simp [List.filter]
  · intro obj h
    obtain ⟨updated, rfl⟩ := putProfile_payload env u body db obj h
    rfl

/-- C20 at a concrete input: Ann, held with her password hash, changes her name. -/
theorem password_never_serialized_witness :
    ("password" ∉ annStored.toJSON.map Prod.fst
      ∧ annStored.toJSON = annStored.withoutPassword.toObject
      ∧ getProfile annStored = ⟨200, true, none, .user (profileView annStored)⟩
      ∧ (profileView annStored).map Prod.fst = profileKeys
      ∧ ∀ obj, (putProfile sampleEnv annStored [("name", "Ann B")] sampleDb).1.payload = .user obj →
          obj.map Prod.fst = profileKeys)
      ∧ (putProfile sampleEnv annStored [("name", "Ann B")] sampleDb).1.status = 200 :=
  ⟨password_never_serialized sampleEnv annStored [("name", "Ann B")] sampleDb, by decide⟩

/-- C21: keys of a profile-update body other than name, bio and avatar are ignored: the response and the
identity collection after the request are those of the body with every other key removed, so no
body is rejected for an extra key; and the request leaves the id, email and password of every
stored identity as they were. -/
theorem profile_update_ignores_other_keys (env : Env) (user : User) (body : JsObject) (db : UserDb) :
    putProfile env user body db = putProfile env user (onlyProfileKeys body) db
      ∧ (putProfile env user body db).2.users.map User.credentials = db.users.map User.credentials := by
  refine ⟨putProfile_congr env user body _ db fun k hk => (get_onlyProfileKeys body k hk).symm, ?_⟩
  unfold putProfile
  simp only
  repeat' split
  all_goals first
    | rfl
    | (rename_i hq
       exact (findByIdAndUpdate_credentials _ _ _ _ _ _ hq).1)
/-- C21 at a concrete input: Ann changes her name with a body that also carries an email and a password. -/
theorem profile_update_ignores_other_keys_witness :
    (putProfile sampleEnv ann [("name", "Ann B"), ("email", "eve@x.com"), ("password", "secret2")] sampleDb
        = putProfile sampleEnv ann
            (onlyProfileKeys [("name", "Ann B"), ("email", "eve@x.com"), ("password", "secret2")]) sampleDb
      ∧ (putProfile sampleEnv ann [("name", "Ann B"), ("email", "eve@x.com"), ("password", "secret2")]
          sampleDb).2.users.map User.credentials = sampleDb.users.map User.credentials)
      ∧ (putProfile sampleEnv ann [("name", "Ann B"), ("email", "eve@x.com"), ("password", "secret2")]
          sampleDb).1.status = 200 :=
  ⟨profile_update_ignores_other_keys sampleEnv ann
    [("name", "Ann B"), ("email", "eve@x.com"), ("password", "secret2")] sampleDb, by decide⟩

/-- C22: with a non-empty status as the only filter the list is answered with 200 and holds exactly the
caller's tasks of that status, each as often as it is stored: no task of another status or owner,
and every task of the caller with that status; and likewise for a priority. -/
theorem list_by_status_or_priority (env : Env) (caller : User) (s : String) (tasks : List Task)
    (hne : s ≠ "") :
    ((getTasks env caller [("status", s)] tasks).1.status = 200
        ∧ (getTasks env caller [("status", s)] tasks).1.taskList.Perm
            (tasks.filter fun t => decide (t.user = caller._id) && decide (t.status = s))
        ∧ ∀ t, t ∈ (getTasks env caller [("status", s)] tasks).1.taskList
            ↔ t ∈ tasks ∧ t.user = caller._id ∧ t.status = s)
      ∧ (getTasks env caller [("priority", s)] tasks).1.status = 200
      ∧ (getTasks env caller [("priority", s)] tasks).1.taskList.Perm
          (tasks.filter fun t => decide (t.user = caller._id) && decide (t.priority = s))
      ∧ ∀ t, t ∈ (getTasks env caller [("priority", s)] tasks).1.taskList
          ↔ t ∈ tasks ∧ t.user = caller._id ∧ t.priority = s := by
  have f1 := listFilter_status caller [("status", s)] s (by simp [JsObject.get, List.lookup]) hne
    (by simp [JsObject.get, List.lookup, truthy]) (by simp [JsObject.get, List.lookup, truthy])
  have f2 := listFilter_priority caller [("priority", s)] s (by simp [JsObject.get, List.lookup]) hne
    (by simp [JsObject.get, List.lookup, truthy]) (by simp [JsObject.get, List.lookup, truthy])
  have c1 : (listFilter caller [("status", s)]).compile env
      = .ok fun t => decide (t.user = caller._id) && decide (t.status = s) := by
    rw [f1]
    simp only [TaskFilter.compile, TaskFilter.idCasts, Bool.true_eq_false, ↓reduceIte, Except.ok.injEq]
    funext t
    simp [TaskFilter.base]
  have c2 : (listFilter caller [("priority", s)]).compile env
      = .ok fun t => decide (t.user = caller._id) && decide (t.priority = s) := by
    rw [f2]
    simp only [TaskFilter.compile, TaskFilter.idCasts, Bool.true_eq_false, ↓reduceIte, Except.ok.injEq]
    funext t
    simp [TaskFilter.base]
  rw [getTasks_of_compile env caller _ tasks _ c1, getTasks_of_compile env caller _ tasks _ c2]
  refine ⟨⟨rfl, List.perm_insertionSort _ _, ?_⟩, rfl, List.perm_insertionSort _ _, ?_⟩
  · intro t
    simp only [Response.taskList]
    rw [(List.perm_insertionSort newerFirst _).mem_iff, List.mem_filter]
    simp
  · intro t
    simp only [Response.taskList]
    rw [(List.perm_insertionSort newerFirst _).mem_iff, List.mem_filter]
    simp

/-- C22 at a concrete input: Ann lists her pending tasks. -/
theorem list_by_status_or_priority_witness :
    ((getTasks sampleEnv ann [("status", "pending")] [abc, milk]).1.status = 200
        ∧ (getTasks sampleEnv ann [("status", "pending")] [abc, milk]).1.taskList.Perm
            ([abc, milk].filter fun t => decide (t.user = ann._id) && decide (t.status = "pending"))
        ∧ ∀ t, t ∈ (getTasks sampleEnv ann [("status", "pending")] [abc, milk]).1.taskList
            ↔ t ∈ [abc, milk] ∧ t.user = ann._id ∧ t.status = "pending")
      ∧ (getTasks sampleEnv ann [("priority", "pending")] [abc, milk]).1.status = 200
      ∧ (getTasks sampleEnv ann [("priority", "pending")] [abc, milk]).1.taskList.Perm
          ([abc, milk].filter fun t => decide (t.user = ann._id) && decide (t.priority = "pending"))
      ∧ ∀ t, t ∈ (getTasks sampleEnv ann [("priority", "pending")] [abc, milk]).1.taskList
          ↔ t ∈ [abc, milk] ∧ t.user = ann._id ∧ t.priority = "pending" :=
  list_by_status_or_priority sampleEnv ann "pending" [abc, milk] (by decide)

/-- C23: on a save that does not modify the password the hook calls neither `genSalt` nor `hash` and
leaves the document, its password hash included, as it was; on a save with a new or modified
password, when bcrypt returns, the hook calls `hash` once, on the plaintext and a salt of cost 10,
and puts the result in place of the password. -/
theorem preSave_hashes_once (bcrypt : Bcrypt) (doc : User) :
    preSave bcrypt false doc = (doc, [.next])
      ∧ ∀ plain salt hashed, doc.password = some plain → bcrypt.genSalt 10 = .ok salt →
          bcrypt.hash plain salt = .ok hashed →
          preSave bcrypt true doc
              = ({ doc with password := some hashed }, [.genSalt 10, .hash plain salt, .next])
            ∧ hashCalls (preSave bcrypt true doc).2 = [(plain, salt)] := by
  refine ⟨rfl, ?_⟩
  intro plain salt hashed hp hs hh
  have : preSave bcrypt true doc
      = ({ doc with password := some hashed }, [.genSalt 10, .hash plain salt, .next]) := by
    unfold preSave
    simp [hp, hs, hh]
  rw [this]
  exact ⟨rfl, rfl⟩

/-- C23 at a concrete input: Ann saved with a new password. -/
theorem preSave_hashes_once_witness :
    preSave sampleBcrypt false annStored = (annStored, [.next])
      ∧ preSave sampleBcrypt true { ann with password := some "secret1" }
          = ({ ann with password := some "$2a$10$secret1" },
              [.genSalt 10, .hash "secret1" "$2a$10$", .next])
      ∧ hashCalls (preSave sampleBcrypt true { ann with password := some "secret1" }).2
          = [("secret1", "$2a$10$")] :=
  ⟨(preSave_hashes_once sampleBcrypt annStored).1,
    (preSave_hashes_once sampleBcrypt { ann with password := some "secret1" }).2
      "secret1" "$2a$10$" "$2a$10$secret1" rfl rfl rfl⟩

/-- C24: for a header that begins with `Bearer `, a token the gate hands to the verifier is non-empty,
has no space, and is the text after the scheme up to the next space or the end of the header; when
the verifier is not called the request is rejected as having no token; `Bearer  x` is so rejected,
and for `Bearer a b` the verifier is called with `a` and with nothing else. -/
theorem verified_token_is_first_segment (verifyToken : String → Except JsError Decoded) (db : UserDb)
    (header : String) (hstart : startsWithChars header.data "Bearer ".data = true) :
    (∀ token, Effect.verifyToken token ∈ authMiddleware verifyToken db (some header) →
        token ≠ "" ∧ ' ' ∉ token.data
          ∧ ∃ rest, header.data = "Bearer ".data ++ token.data ++ rest
              ∧ (rest = [] ∨ rest.head? = some ' '))
      ∧ ((∀ token, Effect.verifyToken token ∉ authMiddleware verifyToken db (some header))
          → authMiddleware verifyToken db (some header) = [.respond noToken])
      ∧ authMiddleware verifyToken db (some "Bearer  x") = [.respond noToken]
      ∧ (authMiddleware verifyToken db (some "Bearer a b")).head? = some (.verifyToken "a")
      ∧ ∀ token, Effect.verifyToken token ∈ authMiddleware verifyToken db (some "Bearer a b") →
          token = "a" := by
  have hab : BearerForm "Bearer a b" "a" :=
    ⟨by decide, by decide, " b".data, by decide, Or.inr (by decide)⟩
  refine ⟨?_, ?_, ?_, verify_first_of_form verifyToken db _ _ hab, ?_⟩
  · intro token h
    obtain ⟨header2, hh, hf⟩ := verified_token_form verifyToken db _ token h
    cases hh
    exact hf
  · intro hnone
    by_cases hform : ∃ tok, BearerForm header tok
    · obtain ⟨tok, hf⟩ := hform
      have := verify_first_of_form verifyToken db header tok hf
      exact absurd (List.mem_of_mem_head? this) (hnone tok)
    · have hno : ∀ h2 tok, some header = some h2 → ¬ BearerForm h2 tok := by
        intro h2 tok hh hf
        cases hh
        exact hform ⟨tok, hf⟩
      rcases gate_run_of_no_form verifyToken db (some header) hno with hrun | hrun
      · exfalso
        unfold authMiddleware at hrun
        by_cases h1 : header = "" ∨ startsWithChars header.data "Bearer ".data = false
        · rcases h1 with h1 | h1
          · rw [h1] at hstart
            revert hstart
            decide
          · rw [h1] at hstart
            cases hstart
        · simp only [h1, ↓reduceIte] at hrun
          by_cases h2 : truthy (bearerToken header) = false
          · simp only [h2, ↓reduceIte] at hrun
            revert hrun
            decide
          · simp only [Bool.not_eq_false] at h2
            exact hform ⟨_, form_of_bearerToken header hstart h2⟩
      · exact hrun
  · have hno : ∀ h2 tok, some "Bearer  x" = some h2 → ¬ BearerForm h2 tok := by
      intro h2 tok hh hf
      cases hh
      have h1 := (bearerToken_of_form _ tok hf).2.2
      have h2 : bearerToken "Bearer  x" = some "" :=
        bearerToken_empty "Bearer  x" " x".data (by decide) (Or.inr (by decide))
      rw [h2] at h1
      exact hf.1 (Option.some.inj h1).symm
    rcases gate_run_of_no_form verifyToken db (some "Bearer  x") hno with hrun | hrun
    · exfalso
      unfold authMiddleware at hrun
      simp only [show ¬ (("Bearer  x" : String) = "" ∨
        startsWithChars ("Bearer  x" : String).data "Bearer ".data = false) by decide, ↓reduceIte,
        show truthy (bearerToken "Bearer  x") = false by decide] at hrun
      revert hrun
      decide
    · exact hrun
  · intro token h
    obtain ⟨header2, hh, hf⟩ := verified_token_form verifyToken db _ token h
    cases hh
    exact form_unique _ _ _ hf hab

/-- C24 at a concrete input: a header with a second segment after Ann's token. -/
theorem verified_token_is_first_segment_witness :
    (∀ token, Effect.verifyToken token ∈ authMiddleware sampleVerify sampleDb (some "Bearer good x") →
        token ≠ "" ∧ ' ' ∉ token.data
          ∧ ∃ rest, ("Bearer good x" : String).data = "Bearer ".data ++ token.data ++ rest
              ∧ (rest = [] ∨ rest.head? = some ' '))
      ∧ ((∀ token, Effect.verifyToken token ∉ authMiddleware sampleVerify sampleDb (some "Bearer good x"))
          → authMiddleware sampleVerify sampleDb (some "Bearer good x") = [.respond noToken])
      ∧ authMiddleware sampleVerify sampleDb (some "Bearer  x") = [.respond noToken]
      ∧ (authMiddleware sampleVerify sampleDb (some "Bearer a b")).head? = some (.verifyToken "a")
      ∧ ∀ token, Effect.verifyToken token ∈ authMiddleware sampleVerify sampleDb (some "Bearer a b") →
          token = "a" :=
  verified_token_is_first_segment sampleVerify sampleDb "Bearer good x" (by decide)


end Primetrade
